import Mathlib

/-!
# PixSim-API: verification of the natural-language specification

Shallow embedding of the PixSim-API server (JavaScript) in Lean 4, claim by
claim.  Each definition is translated from the repository source:

* `src/unnamed/part_011` — `PixelConverter` (`convert`, `convertGrid`,
  `convertStr`, the `extract` table builder);
* `src/src/multiplayer/index.js` — `Room` (rosters, `join`, `changeTeam`,
  `move`, the `teamSize` setter, `#handleTick`, `#handleInput`),
  `PixSimHandler` (the `clientInfo` handshake listener) and the process-wide
  crash handler `handleCrash`;
* `src/src/multiplayer/maps.js` — `MapManager.#addMap`, case `'bps'`;
* `src/src/multiplayer/controllers.js` — `PixSimAssemblyCompiler.compile`.

JavaScript `Uint8ClampedArray`s of length 256 are embedded as
`Fin 256 → Fin 256`; JS `Map`s keyed by dialect id as association lists;
thrown exceptions as `Except`; `undefined` as `Option.none`.
-/

namespace PixSim

/-- The reserved "unknown / unmapped" sentinel pixel id (`0xff`). -/
def sentinel : Fin 256 := 255

/-- One dialect's numeric conversion table: two length-256 byte arrays
`from[dialectNumeric] → canonical` and `to[canonical] → dialectNumeric`,
each defaulting to the sentinel (`Buffer.alloc(256, 0xff)` in
`src/unnamed/part_011`, lines 37–38). -/
structure ConvTable where
  tabFrom : Fin 256 → Fin 256
  tabTo : Fin 256 → Fin 256

/-- One dialect's string-id table pair (`idfrom : Map string → canonical`,
`idto : Map canonical → string`, `src/unnamed/part_011` lines 39–40). -/
structure IdTable where
  idFrom : String → Option Nat
  idTo : Nat → Option String

/-- The `PixelConverter` state after construction: `#tables` and `#idTables`,
both JS `Map`s keyed by dialect id. -/
structure ConverterState where
  tables : String → Option ConvTable
  idTables : String → Option IdTable

/-- Write `arr[i] = v` on a `Uint8ClampedArray` of length 256: out-of-range
indices are ignored (JS semantics). -/
def setIdx (f : Fin 256 → Fin 256) (i : Nat) (v : Fin 256) : Fin 256 → Fin 256 :=
  if h : i < 256 then Function.update f ⟨i, h⟩ v else f

/-- `Uint8ClampedArray` value clamping: values ≥ 255 store 255 (the numbers
that occur here are the nonnegative integers produced by `parseInt`). -/
def clampVal (v : Nat) : Fin 256 :=
  if h : v < 256 then ⟨v, h⟩ else 255

/-- All-sentinel table (`Buffer.alloc(256, 0xff)`). -/
def emptyTab : Fin 256 → Fin 256 := fun _ => sentinel

/-- One iteration of the `for (let id in pixels)` loop of `extract`
(`src/unnamed/part_011` lines 42–51): look the string id up in the lookup
table; on a hit write `from[pixels[id]] = id2` and `to[id2] = pixels[id]`.
`lookup` abstracts `lookupTable.find((row) => row[col] == id)` followed by
`parseInt(row[0])`. -/
def extractStep (lookup : String → Option Nat) (tab : ConvTable) (p : String × Nat) :
    ConvTable :=
  match lookup p.1 with
  | some c => { tabFrom := setIdx tab.tabFrom p.2 (clampVal c)
                tabTo := setIdx tab.tabTo c (clampVal p.2) }
  | none => tab

/-- The numeric table pair built by `extract` for one dialect from the
extracted `pixels` mapping (string id, dialect numeric id) and the
authoritative lookup column. -/
def extractTable (pixels : List (String × Nat)) (lookup : String → Option Nat) :
    ConvTable :=
  pixels.foldl (extractStep lookup) ⟨emptyTab, emptyTab⟩

/-- `PixelConverter.convert` (`src/unnamed/part_011` lines 129–134):
`if (from === to) return n;` then, when both dialect tables are loaded,
`return this.#tables.get(to).to[this.#tables.get(from).from[n]] ?? 255;`
else `return 255`.  For `n ≥ 256` the inner read is `undefined` and the
outer read `to[undefined]` is `undefined`, so the `?? 255` yields 255. -/
def convert (st : ConverterState) (n : Nat) (dFrom dTo : String) : Nat :=
  if dFrom = dTo then n
  else
    match st.tables dFrom, st.tables dTo with
    | some tf, some tt =>
        if h : n < 256 then (tt.tabTo (tf.tabFrom ⟨n, h⟩)).val else 255
    | _, _ => 255

/-- `PixelConverter.convertGrid` (`src/unnamed/part_011` lines 142–159).
When either dialect table is missing the input buffer itself is returned.
Otherwise the loop body's first statement is `header = compressed[i++]`,
and `compressed` is not declared anywhere in the program, so the first
iteration throws a `ReferenceError`; the loop body runs iff the grid is
non-empty.  An empty grid returns the fresh copy `Buffer.from(grid)`. -/
def convertGrid (st : ConverterState) (grid : List (Fin 256)) (dFrom dTo : String) :
    Except String (List (Fin 256)) :=
  match st.tables dFrom, st.tables dTo with
  | some _, some _ =>
      if grid.length = 0 then Except.ok grid
      else Except.error "ReferenceError: compressed is not defined"
  | _, _ => Except.ok grid

/-- `PixelConverter.convertStr` (`src/unnamed/part_011` lines 168–173):
`if (from === to) return id;` then, with both id tables present,
`idTables.get(to).to.get(idTables.get(from).from.get(id)) ?? 'null'`
(a JS `Map.get` of `undefined` is `undefined`, collapsed to `'null'`);
with a table missing it returns JS `null`, embedded as `none`. -/
def convertStr (st : ConverterState) (id : String) (dFrom dTo : String) :
    Option String :=  -- `none` embeds the JS `null` return
  if dFrom = dTo then some id
  else
    match st.idTables dFrom, st.idTables dTo with
    | some f, some t =>
        some ((f.idFrom id).bind t.idTo |>.getD "null")
    | _, _ => none

section ClaimC2

/-- Sample extraction data: the `rps` extractor maps string id `"a"` to
dialect byte 7. -/
def rpsPixels : List (String × Nat) := [("a", 7)]

/-- Sample lookup column for `rps`: string id `"a"` is canonical id 1. -/
def rpsLookup : String → Option Nat := fun s => if s = "a" then some 1 else none

/-- Sample extraction data: the `bps` extractor maps string id `"x"` to
dialect byte 9. -/
def bpsPixels : List (String × Nat) := [("x", 9)]

/-- Sample lookup column for `bps`: string id `"x"` is canonical id 1. -/
def bpsLookup : String → Option Nat := fun s => if s = "x" then some 1 else none

/-- A converter state with the `rps` and `bps` numeric tables loaded
(the two dialects configured in `src/src/multiplayer/index.js` lines 48–66),
built by `extract` from the sample data above: `rps` maps dialect byte 7 to
canonical 1 and back; `bps` maps dialect byte 9 to canonical 1. -/
def stExample : ConverterState where
  tables := fun d =>
    if d = "rps" then some (extractTable rpsPixels rpsLookup)
    else if d = "bps" then some (extractTable bpsPixels bpsLookup)
    else none
  idTables := fun _ => none

/-- In a table built by `extract` from a lookup column that only produces
canonical ids below 255, the `to` entry at the sentinel index 255 is never
written and keeps its default value 255. -/
theorem extractTable_tabTo_sentinel (pixels : List (String × Nat))
    (lookup : String → Option Nat) (hcan : ∀ sid c, lookup sid = some c → c < 255) :
    (extractTable pixels lookup).tabTo sentinel = sentinel := by
  have hto : ∀ tab : ConvTable, tab.tabTo sentinel = sentinel →
      (pixels.foldl (extractStep lookup) tab).tabTo sentinel = sentinel := by
    intro tab htab
    induction pixels generalizing tab with
    | nil => exact htab
    | cons p rest ih =>
        rw [List.foldl_cons]
        apply ih
        unfold extractStep
        cases hl : lookup p.1 with
        | none => exact htab
        | some c =>
            have hc : c < 255 := hcan _ _ hl
            simp only [setIdx]
            split
            · rw [Function.update_noteq]
              · exact htab
              · intro hcontra
                have h255 : sentinel.val = c := congrArg Fin.val hcontra
                have hv : sentinel.val = 255 := by decide
                omega
            · exact htab
  exact hto ⟨emptyTab, emptyTab⟩ rfl

/-- C2.  `convert` returns `n` when the dialects coincide; returns the
sentinel 255 when either dialect has no loaded table; otherwise returns the
two-step table composition; and, for a `from`-table built by `extract` whose
lookup only produces canonical ids below 255 (255 is the reserved sentinel of
the lookup file) and a `to`-table likewise, an unmapped step yields 255:
an unmapped first step reads `from[n] = 255` and `to[255]` is never written,
and an unmapped second step reads the default 255 directly. -/
theorem convert_spec (st : ConverterState) (n : Nat) (dFrom dTo : String)
    (hn : n < 256) :
    (dFrom = dTo → convert st n dFrom dTo = n) ∧
    ((st.tables dFrom = none ∨ st.tables dTo = none) → dFrom ≠ dTo →
      convert st n dFrom dTo = 255) ∧
    (∀ tf tt, st.tables dFrom = some tf → st.tables dTo = some tt → dFrom ≠ dTo →
      convert st n dFrom dTo = (tt.tabTo (tf.tabFrom ⟨n, hn⟩)).val) ∧
    (∀ tf pixels lookup, st.tables dFrom = some tf →
      st.tables dTo = some (extractTable pixels lookup) →
      (∀ sid c, lookup sid = some c → c < 255) → dFrom ≠ dTo →
      tf.tabFrom ⟨n, hn⟩ = sentinel →
      convert st n dFrom dTo = 255) := by
  refine ⟨fun h => by simp [convert, h], fun h hne => ?_, fun tf tt hf ht hne => ?_,
    fun tf pixels lookup hf ht hcan hne hum => ?_⟩
  · simp only [convert, if_neg hne]
    rcases h with h | h
    · rw [h]
    · rw [h]
      cases st.tables dFrom <;> rfl
  · simp [convert, hne, hf, ht, hn]
  · have hres : (extractTable pixels lookup).tabTo sentinel = sentinel :=
      extractTable_tabTo_sentinel pixels lookup hcan
    simp only [convert, if_neg hne, hf, ht]
    rw [dif_pos hn, hum, hres]
    rfl

/-- Witness for `convert_spec` at concrete inputs: in `stExample`,
`convert 3 "rps" "rps" = 3`, `convert 3 "rps" "psp" = 255` (no `psp` table),
and `convert 7 "rps" "bps" = 9` (two-step composition through canonical 1). -/
theorem convert_spec_witness :
    convert stExample 3 "rps" "rps" = 3 ∧
    convert stExample 3 "rps" "psp" = 255 ∧
    convert stExample 7 "rps" "bps" = 9 := by
  have h := convert_spec stExample 3 "rps" "rps" (by decide)
  have h2 := convert_spec stExample 3 "rps" "psp" (by decide)
  have h3 := convert_spec stExample 7 "rps" "bps" (by decide)
  refine ⟨h.1 rfl, ?_, ?_⟩
  · exact h2.2.1 (Or.inr (by simp [stExample])) (by decide)
  · have := h3.2.2.1 (extractTable rpsPixels rpsLookup)
      (extractTable bpsPixels bpsLookup)
      (by simp [stExample]) (by simp [stExample]) (by decide)
    rw [this]
    decide

end ClaimC2

section ClaimC3

/-- C3 (code defect).  With both dialect tables loaded, `convertGrid` throws
on every non-empty input: the first statement of its walk,
`header = compressed[i++]` (`src/unnamed/part_011` line 149), reads the
undeclared identifier `compressed` and raises a `ReferenceError`, so the
call never returns the translated copy the claim describes.  Evaluated here
at the one-byte grid `[0]` between the loaded dialects `rps` and `bps`. -/
theorem convertGrid_throws_C3 :
    convertGrid stExample [0] "rps" "bps" =
      Except.error "ReferenceError: compressed is not defined" := by
  simp [convertGrid, stExample]

end ClaimC3

section ClaimC4

/-- The `(dialectNumeric, canonical)` pairs that the `extract` loop actually
writes: one per `pixels` entry whose string id hits the lookup column. -/
def extractEntries (pixels : List (String × Nat)) (lookup : String → Option Nat) :
    List (Nat × Nat) :=
  pixels.filterMap (fun p => (lookup p.1).map (fun c => (p.2, c)))

/-- Well-formedness of one dialect's extraction data, as the spec's data
model assumes of the authoritative lookup file and a client's pixel list:
dialect numeric ids are distinct bytes, canonical ids are distinct and below
the reserved sentinel 255. -/
def ExtractOK (pixels : List (String × Nat)) (lookup : String → Option Nat) : Prop :=
  ((extractEntries pixels lookup).map Prod.fst).Nodup ∧
  ((extractEntries pixels lookup).map Prod.snd).Nodup ∧
  ∀ e ∈ extractEntries pixels lookup, e.1 < 256 ∧ e.2 < 255

instance (pixels : List (String × Nat)) (lookup : String → Option Nat)
    [DecidablePred fun s => (lookup s).isSome] :
    Decidable (ExtractOK pixels lookup) := by
  unfold ExtractOK; infer_instance

/-- The write performed for one extract entry `(pnum, canonical)`. -/
def entryStep (tab : ConvTable) (e : Nat × Nat) : ConvTable :=
  { tabFrom := setIdx tab.tabFrom e.1 (clampVal e.2)
    tabTo := setIdx tab.tabTo e.2 (clampVal e.1) }

theorem extractTable_eq_entriesFold (pixels : List (String × Nat))
    (lookup : String → Option Nat) :
    extractTable pixels lookup =
      (extractEntries pixels lookup).foldl entryStep ⟨emptyTab, emptyTab⟩ := by
  unfold extractTable extractEntries
  generalize (⟨emptyTab, emptyTab⟩ : ConvTable) = acc
  induction pixels generalizing acc with
  | nil => rfl
  | cons p rest ih =>
      rw [List.foldl_cons, List.filterMap_cons]
      cases hl : lookup p.1 with
      | none => simpa [extractStep, hl] using ih acc
      | some c => simpa [extractStep, entryStep, hl] using ih (entryStep acc (p.2, c))

/-- Reading a `setIdx`-written array at a different index sees the old value. -/
theorem setIdx_noteq (f : Fin 256 → Fin 256) (i : Nat) (v : Fin 256) (p : Fin 256)
    (h : i ≠ p.val) : setIdx f i v p = f p := by
  unfold setIdx
  split
  · exact Function.update_noteq (fun hc => h (congrArg Fin.val hc).symm) _ _
  · rfl

/-- Reading a `setIdx`-written array at the written index sees the new value. -/
theorem setIdx_eq (f : Fin 256 → Fin 256) (i : Nat) (v : Fin 256) (h : i < 256) :
    setIdx f i v ⟨i, h⟩ = v := by
  unfold setIdx
  rw [dif_pos h, Function.update_same]

/-- Entries whose key is absent from the rest of the fold are not
overwritten (from-side). -/
theorem entriesFold_tabFrom_skip (l : List (Nat × Nat)) (acc : ConvTable)
    (p : Fin 256) (hskip : ∀ e ∈ l, e.1 ≠ p.val) :
    (l.foldl entryStep acc).tabFrom p = acc.tabFrom p := by
  induction l generalizing acc with
  | nil => rfl
  | cons e rest ih =>
      rw [List.foldl_cons, ih _ (fun x hx => hskip x (List.mem_cons_of_mem _ hx))]
      exact setIdx_noteq _ _ _ _ (hskip e (List.mem_cons_self _ _))

/-- Entries whose canonical is absent from the rest of the fold are not
overwritten (to-side). -/
theorem entriesFold_tabTo_skip (l : List (Nat × Nat)) (acc : ConvTable)
    (c : Fin 256) (hskip : ∀ e ∈ l, e.2 ≠ c.val) :
    (l.foldl entryStep acc).tabTo c = acc.tabTo c := by
  induction l generalizing acc with
  | nil => rfl
  | cons e rest ih =>
      rw [List.foldl_cons, ih _ (fun x hx => hskip x (List.mem_cons_of_mem _ hx))]
      exact setIdx_noteq _ _ _ _ (hskip e (List.mem_cons_self _ _))

/-- Each entry of a nodup-keyed extraction ends up in both tables:
`from[pnum] = canonical` and `to[canonical] = pnum`. -/
theorem entriesFold_mem (l : List (Nat × Nat)) (acc : ConvTable)
    (hf : (l.map Prod.fst).Nodup) (hs : (l.map Prod.snd).Nodup)
    (hlt : ∀ e ∈ l, e.1 < 256 ∧ e.2 < 255)
    (p c : Nat) (hmem : (p, c) ∈ l) (hp : p < 256) (hc : c < 256) :
    (l.foldl entryStep acc).tabFrom ⟨p, hp⟩ = ⟨c, hc⟩ ∧
    (l.foldl entryStep acc).tabTo ⟨c, hc⟩ = ⟨p, hp⟩ := by
  induction l generalizing acc with
  | nil => cases hmem
  | cons e rest ih =>
      rw [List.map_cons, List.nodup_cons] at hf hs
      rcases List.mem_cons.mp hmem with heq | hrest
      · subst heq
        rw [List.foldl_cons]
        constructor
        · rw [entriesFold_tabFrom_skip rest (entryStep acc (p, c)) ⟨p, hp⟩
            (fun x hx hcontra => hf.1 (List.mem_map.mpr ⟨x, hx, hcontra⟩))]
          show setIdx acc.tabFrom p (clampVal c) ⟨p, hp⟩ = ⟨c, hc⟩
          rw [setIdx_eq]
          unfold clampVal
          rw [dif_pos hc]
        · rw [entriesFold_tabTo_skip rest (entryStep acc (p, c)) ⟨c, hc⟩
            (fun x hx hcontra => hs.1 (List.mem_map.mpr ⟨x, hx, hcontra⟩))]
          show setIdx acc.tabTo c (clampVal p) ⟨c, hc⟩ = ⟨p, hp⟩
          rw [setIdx_eq]
          unfold clampVal
          rw [dif_pos hp]
      · rw [List.foldl_cons]
        exact ih _ hf.2 hs.2 (fun x hx => hlt x (List.mem_cons_of_mem _ hx)) hrest

/-- A from-entry that is not the default sentinel was written by some
extraction entry. -/
theorem entriesFold_tabFrom_surj (l : List (Nat × Nat)) (b : Fin 256)
    (h : (l.foldl entryStep ⟨emptyTab, emptyTab⟩).tabFrom b ≠ sentinel) :
    ∃ c, (b.val, c) ∈ l := by
  by_contra hno
  push_neg at hno
  refine h ?_
  rw [entriesFold_tabFrom_skip]
  · rfl
  · intro e he hcontra
    exact hno e.2 (by rw [← hcontra]; exact he)

/-- A to-entry that is not the default sentinel was written by some
extraction entry. -/
theorem entriesFold_tabTo_surj (l : List (Nat × Nat)) (c : Fin 256)
    (h : (l.foldl entryStep ⟨emptyTab, emptyTab⟩).tabTo c ≠ sentinel) :
    ∃ p, (p, c.val) ∈ l := by
  by_contra hno
  push_neg at hno
  refine h ?_
  rw [entriesFold_tabTo_skip]
  · rfl
  · intro e he hcontra
    exact hno e.1 (by rw [← hcontra]; exact he)

/-- C4.  Round-trip identity of `convert` through the canonical id: for
dialect tables built by `extract` from well-formed data, if the forward
conversion of byte `b` from `d` to `d'` hits no unmapped (sentinel) entry,
converting the result back from `d'` to `d` returns `b`. -/
theorem convert_roundTrip (st : ConverterState) (d d' : String) (hne : d ≠ d')
    (pixels pixels' : List (String × Nat)) (lookup lookup' : String → Option Nat)
    (hd : st.tables d = some (extractTable pixels lookup))
    (hd' : st.tables d' = some (extractTable pixels' lookup'))
    (hok : ExtractOK pixels lookup) (hok' : ExtractOK pixels' lookup')
    (b : Nat) (hb : b < 256)
    (h1 : (extractTable pixels lookup).tabFrom ⟨b, hb⟩ ≠ sentinel)
    (h2 : (extractTable pixels' lookup').tabTo
            ((extractTable pixels lookup).tabFrom ⟨b, hb⟩) ≠ sentinel) :
    convert st (convert st b d d') d' d = b := by
  obtain ⟨hf, hs, hlt⟩ := hok
  obtain ⟨hf', hs', hlt'⟩ := hok'
  simp only [extractTable_eq_entriesFold] at h1 h2 hd hd'
  set l := extractEntries pixels lookup with hl
  set l' := extractEntries pixels' lookup' with hl'
  -- the forward from-step was written by an entry (b, c) of dialect d
  obtain ⟨c, hbc⟩ := entriesFold_tabFrom_surj l ⟨b, hb⟩ h1
  have hc255 : c < 255 := (hlt _ hbc).2
  have hc : c < 256 := Nat.lt_succ_of_lt hc255
  have hmem := entriesFold_mem l ⟨emptyTab, emptyTab⟩ hf hs hlt b c hbc hb hc
  -- the forward to-step was written by an entry (p', c) of dialect d'
  rw [hmem.1] at h2
  obtain ⟨p', hpc'⟩ := entriesFold_tabTo_surj l' ⟨c, hc⟩ h2
  have hp' : p' < 256 := (hlt' _ hpc').1
  have hmem' := entriesFold_mem l' ⟨emptyTab, emptyTab⟩ hf' hs' hlt' p' c hpc' hp' hc
  -- evaluate the two conversions
  have hfwd : convert st b d d' = p' := by
    simp only [convert, if_neg hne, hd, hd', dif_pos hb]
    rw [hmem.1, hmem'.2]
  have hbwd : convert st p' d' d = b := by
    simp only [convert, if_neg (Ne.symm hne), hd, hd', dif_pos hp']
    rw [hmem'.1, hmem.2]
  rw [hfwd, hbwd]

/-- Witness for `convert_roundTrip`: in `stExample` (both tables built by
`extract`), byte 7 of `rps` converts to byte 9 of `bps` and back to 7. -/
theorem convert_roundTrip_witness :
    convert stExample (convert stExample 7 "rps" "bps") "bps" "rps" = 7 := by
  refine convert_roundTrip stExample "rps" "bps" (by decide)
    rpsPixels bpsPixels rpsLookup bpsLookup
    (by simp [stExample]) (by simp [stExample])
    ⟨by decide, by decide, by decide⟩ ⟨by decide, by decide, by decide⟩
    7 (by decide) (by decide) (by decide)

end ClaimC4

/-! ## Room rosters (`src/src/multiplayer/index.js`, class `Room`) -/

/-- A connected player, as far as the roster logic observes it:
a connection identity, `username` and `clientType`. -/
structure Handler where
  hid : Nat
  username : String
  clientType : String
deriving DecidableEq, Repr

/-- The roster-relevant fields of a `Room`.  JS `Set`s keep insertion order,
so `#teamA`, `#teamB`, `#spectators` are embedded as duplicate-free lists. -/
structure RoomState where
  teamA : List Handler
  teamB : List Handler
  spectators : List Handler
  teamSize : Nat
  isOpen : Bool
  bannedPlayers : List String
deriving DecidableEq, Repr

/-- JS `Set.prototype.add`: appends unless already present. -/
def jsSetAdd (l : List Handler) (h : Handler) : List Handler :=
  if h ∈ l then l else l ++ [h]

/-- `Room.join` (`src/src/multiplayer/index.js` lines 539–564), restricted to
its roster effect.  Non-spectators are rejected when the room is closed;
spectators (or joins when both teams are full) go to `#spectators`;
otherwise a non-banned player goes to the smaller team, ties to team A. -/
def join (r : RoomState) (h : Handler) (spectating : Bool) : RoomState :=
  if ¬spectating ∧ r.isOpen = false then r
  else if spectating ∨ (r.teamSize ≤ r.teamA.length ∧ r.teamSize ≤ r.teamB.length) then
    { r with spectators := jsSetAdd r.spectators h }
  else if h.username ∉ r.bannedPlayers then
    if r.teamB.length < r.teamA.length then { r with teamB := jsSetAdd r.teamB h }
    else { r with teamA := jsSetAdd r.teamA h }
  else r

/-- `Room.changeTeam` (`src/src/multiplayer/index.js` lines 571–586): no-op
unless the room is open, `team ∈ {0,1}` and the target team has capacity;
then deletes the handler from whichever team holds it and adds it to the
target (`if (team)` is JS truthiness, i.e. `team ≠ 0`). -/
def changeTeam (r : RoomState) (h : Handler) (team : Nat) : RoomState :=
  if 1 < team ∨ r.isOpen = false then r
  else if team ≠ 0 ∧ r.teamSize ≤ r.teamB.length then r
  else if team = 0 ∧ r.teamSize ≤ r.teamA.length then r
  else if h ∈ r.teamA then
    let r' := { r with teamA := r.teamA.erase h }
    if team ≠ 0 then { r' with teamB := jsSetAdd r'.teamB h }
    else { r' with teamA := jsSetAdd r'.teamA h }
  else if h ∈ r.teamB then
    let r' := { r with teamB := r.teamB.erase h }
    if team ≠ 0 then { r' with teamB := jsSetAdd r'.teamB h }
    else { r' with teamA := jsSetAdd r'.teamA h }
  else r

/-- `Array.from(team).find((handler) => handler.username == username)`. -/
def findByUsername (l : List Handler) (u : String) : Option Handler :=
  l.find? (fun h => h.username = u)

/-- `Room.move` (`src/src/multiplayer/index.js` lines 610–641): resolves
both usernames across the two teams; when both resolve and sit on different
teams, swaps them; when only the first resolves, delegates to `changeTeam`;
the `process.abort()` arm is unreachable (both on team A is caught by the
equality check first) and is embedded as a no-op. -/
def move (r : RoomState) (username : String) (team : Nat) (username2 : String) :
    RoomState :=
  if 1 < team ∨ r.isOpen = false then r
  else
    match (findByUsername r.teamA username).orElse
        (fun _ => findByUsername r.teamB username) with
    | none => r
    | some h =>
        match (findByUsername r.teamA username2).orElse
            (fun _ => findByUsername r.teamB username2) with
        | none => changeTeam r h team
        | some h2 =>
            let h1T : Bool := h ∈ r.teamB
            let h2T : Bool := h2 ∈ r.teamB
            if h1T = h2T then r
            else if h1T then
              { r with teamA := jsSetAdd (r.teamA.erase h2) h
                       teamB := jsSetAdd (r.teamB.erase h) h2 }
            else if h2T then
              { r with teamA := jsSetAdd (r.teamA.erase h) h2
                       teamB := jsSetAdd (r.teamB.erase h2) h }
            else r

/-- The `teamSize` setter (`src/src/multiplayer/index.js` lines 833–839):
accepts `1 ≤ size ≤ 3` while the room is open, with no check against the
current roster sizes. -/
def setTeamSize (r : RoomState) (size : Nat) : RoomState :=
  if 1 ≤ size ∧ size ≤ 3 ∧ r.isOpen = true then { r with teamSize := size } else r

/-- The capacity invariant of the claim:
`|teamA| ≤ teamSize ∧ |teamB| ≤ teamSize`. -/
def capOK (r : RoomState) : Prop :=
  r.teamA.length ≤ r.teamSize ∧ r.teamB.length ≤ r.teamSize

instance (r : RoomState) : Decidable (capOK r) := by unfold capOK; infer_instance

section ClaimC1

theorem jsSetAdd_length_le (l : List Handler) (h : Handler) :
    (jsSetAdd l h).length ≤ l.length + 1 := by
  unfold jsSetAdd
  split
  · exact Nat.le_succ _
  · simp

theorem jsSetAdd_length_of_not_mem (l : List Handler) (h : Handler) (hn : h ∉ l) :
    (jsSetAdd l h).length = l.length + 1 := by
  unfold jsSetAdd
  rw [if_neg hn]
  simp

/-- `join` preserves the capacity bound: a join lands on team B only when
`|teamB| < |teamA| ≤ teamSize`, and on team A only when `|teamA| < teamSize`
(otherwise both teams would have been full and the join spectates). -/
theorem join_cap (r : RoomState) (h : Handler) (s : Bool) (hcap : capOK r) :
    capOK (join r h s) := by
  obtain ⟨hA, hB⟩ := hcap
  unfold join
  split
  · exact ⟨hA, hB⟩
  split
  · exact ⟨hA, hB⟩
  rename_i hfull
  split
  · split
    · rename_i hBA
      exact ⟨hA, Nat.le_trans (jsSetAdd_length_le _ _) (Nat.le_trans hBA hA)⟩
    · rename_i hBA
      push_neg at hBA
      have hfull2 : ¬(r.teamSize ≤ r.teamA.length ∧ r.teamSize ≤ r.teamB.length) :=
        fun hc => hfull (Or.inr hc)
      have hAlt : r.teamA.length < r.teamSize := by
        rcases Nat.lt_or_ge r.teamA.length r.teamSize with hlt | hge
        · exact hlt
        · exact absurd ⟨hge, Nat.le_trans hge hBA⟩ hfull2
      exact ⟨Nat.le_trans (jsSetAdd_length_le _ _) hAlt, hB⟩
  · exact ⟨hA, hB⟩

/-- `changeTeam` preserves the capacity bound: the target team passed an
explicit capacity check and the source team only shrinks. -/
theorem changeTeam_cap (r : RoomState) (h : Handler) (team : Nat)
    (hcap : capOK r) : capOK (changeTeam r h team) := by
  obtain ⟨hA, hB⟩ := hcap
  unfold changeTeam
  split
  · exact ⟨hA, hB⟩
  split
  · exact ⟨hA, hB⟩
  rename_i hBcap
  split
  · exact ⟨hA, hB⟩
  rename_i hAcap
  split
  · split
    · rename_i hteam
      have hBlt : r.teamB.length < r.teamSize :=
        Nat.lt_of_not_le fun hge => hBcap ⟨hteam, hge⟩
      exact ⟨Nat.le_trans (List.length_erase_le _ _) hA,
        Nat.le_trans (jsSetAdd_length_le _ _) hBlt⟩
    · rename_i hteam
      push_neg at hteam
      have hAlt : r.teamA.length < r.teamSize :=
        Nat.lt_of_not_le fun hge => hAcap ⟨hteam, hge⟩
      refine ⟨?_, hB⟩
      exact Nat.le_trans (jsSetAdd_length_le _ _)
        (Nat.le_trans (Nat.succ_le_succ (List.length_erase_le _ _)) hAlt)
  split
  · split
    · rename_i hteam
      have hBlt : r.teamB.length < r.teamSize :=
        Nat.lt_of_not_le fun hge => hBcap ⟨hteam, hge⟩
      refine ⟨hA, ?_⟩
      exact Nat.le_trans (jsSetAdd_length_le _ _)
        (Nat.le_trans (Nat.succ_le_succ (List.length_erase_le _ _)) hBlt)
    · rename_i hteam
      push_neg at hteam
      have hAlt : r.teamA.length < r.teamSize :=
        Nat.lt_of_not_le fun hge => hAcap ⟨hteam, hge⟩
      exact ⟨Nat.le_trans (jsSetAdd_length_le _ _) hAlt,
        Nat.le_trans (List.length_erase_le _ _) hB⟩
  · exact ⟨hA, hB⟩

/-- Resolving a username across the two team lists yields a member of one
of them. -/
theorem findTwoTeams_mem (A B : List Handler) (u : String) (h : Handler)
    (hf : ((findByUsername A u).orElse fun _ => findByUsername B u) = some h) :
    h ∈ A ∨ h ∈ B := by
  cases hA : findByUsername A u with
  | some x =>
      rw [hA] at hf
      rw [Option.some_orElse'] at hf
      cases hf
      exact Or.inl (List.mem_of_find?_eq_some hA)
  | none =>
      rw [hA] at hf
      rw [Option.none_orElse'] at hf
      exact Or.inr (List.mem_of_find?_eq_some hf)

/-- `move` preserves the capacity bound.  A swap exchanges one member of
each team, leaving both lengths unchanged (the teams of a room are
disjoint); a single resolution delegates to `changeTeam`. -/
theorem move_cap (r : RoomState) (u : String) (team : Nat) (u2 : String)
    (hcap : capOK r) (hdisj : ∀ x ∈ r.teamA, x ∉ r.teamB) :
    capOK (move r u team u2) := by
  obtain ⟨hA, hB⟩ := hcap
  unfold move
  split
  · exact ⟨hA, hB⟩
  cases hfind : ((findByUsername r.teamA u).orElse
      fun _ => findByUsername r.teamB u) with
  | none => exact ⟨hA, hB⟩
  | some h1 =>
      cases hfind2 : ((findByUsername r.teamA u2).orElse
          fun _ => findByUsername r.teamB u2) with
      | none => exact changeTeam_cap r h1 team ⟨hA, hB⟩
      | some h2 =>
          simp only
          split
          · exact ⟨hA, hB⟩
          rename_i hneq
          split
          · -- h1 ∈ teamB, h2 ∉ teamB (so h2 ∈ teamA); sizes are preserved
            rename_i h1T
            have h1B : h1 ∈ r.teamB := of_decide_eq_true h1T
            have h2nB : h2 ∉ r.teamB := by
              intro hmem
              exact hneq (by rw [h1T, decide_eq_true hmem])
            have h2A : h2 ∈ r.teamA :=
              (findTwoTeams_mem _ _ _ _ hfind2).resolve_right h2nB
            have h1nA : h1 ∉ r.teamA := fun hmem => hdisj h1 hmem h1B
            constructor
            · show (jsSetAdd (r.teamA.erase h2) h1).length ≤ r.teamSize
              rw [jsSetAdd_length_of_not_mem _ _
                (fun hm => h1nA (List.mem_of_mem_erase hm)),
                List.length_erase_of_mem h2A]
              have hpos := List.length_pos_of_mem h2A
              omega
            · show (jsSetAdd (r.teamB.erase h1) h2).length ≤ r.teamSize
              rw [jsSetAdd_length_of_not_mem _ _
                (fun hm => h2nB (List.mem_of_mem_erase hm)),
                List.length_erase_of_mem h1B]
              have hpos := List.length_pos_of_mem h1B
              omega
          split
          · -- h2 ∈ teamB, h1 ∉ teamB (so h1 ∈ teamA); sizes are preserved
            rename_i h1T h2T
            have h2B : h2 ∈ r.teamB := of_decide_eq_true h2T
            have h1nB : h1 ∉ r.teamB := by
              intro hmem
              exact h1T (decide_eq_true hmem)
            have h1A : h1 ∈ r.teamA :=
              (findTwoTeams_mem _ _ _ _ hfind).resolve_right h1nB
            have h2nA : h2 ∉ r.teamA := fun hmem => hdisj h2 hmem h2B
            constructor
            · show (jsSetAdd (r.teamA.erase h1) h2).length ≤ r.teamSize
              rw [jsSetAdd_length_of_not_mem _ _
                (fun hm => h2nA (List.mem_of_mem_erase hm)),
                List.length_erase_of_mem h1A]
              have hpos := List.length_pos_of_mem h1A
              omega
            · show (jsSetAdd (r.teamB.erase h2) h1).length ≤ r.teamSize
              rw [jsSetAdd_length_of_not_mem _ _
                (fun hm => h1nB (List.mem_of_mem_erase hm)),
                List.length_erase_of_mem h2B]
              have hpos := List.length_pos_of_mem h2B
              omega
          · exact ⟨hA, hB⟩

/-- Two members of `roomC1`. -/
def handlerA : Handler := ⟨0, "alice", "rps"⟩

def handlerB : Handler := ⟨1, "bob", "rps"⟩

/-- An open room with `teamSize = 2` and two players on team A (reachable:
two non-spectating joins tie to team A when team B is not smaller). -/
def roomC1 : RoomState :=
  { teamA := [handlerA, handlerB], teamB := [], spectators := []
    teamSize := 2, isOpen := true, bannedPlayers := [] }

/-- C1, counterexample.  The claim includes the host-driven `teamSize`
update (while open) among the operations after which
`|teamA| ≤ teamSize ∧ |teamB| ≤ teamSize` holds, but the setter accepts any
size in `[1,3]` while the room is open without checking the rosters:
lowering `teamSize` from 2 to 1 with two players on team A leaves
`|teamA| = 2 > 1`. -/
theorem teamSize_breaks_cap_C1 :
    capOK roomC1 ∧ roomC1.isOpen = true ∧ ¬ capOK (setTeamSize roomC1 1) := by
  decide

/-- C1, amended.  `join`, `changeTeam` and `move` preserve the capacity
bound (`move` under the team-disjointness every reachable room satisfies);
the host-driven `teamSize` update preserves it only when the new size is at
least both current team lengths. -/
theorem roster_cap_preserved_C1 (r : RoomState) (h : Handler) (s : Bool)
    (team : Nat) (u u2 : String) (n : Nat)
    (hcap : capOK r)
    (hdisj : ∀ x ∈ r.teamA, x ∉ r.teamB)
    (hnA : r.teamA.length ≤ n) (hnB : r.teamB.length ≤ n) :
    capOK (join r h s) ∧ capOK (changeTeam r h team) ∧
    capOK (move r u team u2) ∧ capOK (setTeamSize r n) := by
  refine ⟨join_cap r h s hcap, changeTeam_cap r h team hcap,
    move_cap r u team u2 hcap hdisj, ?_⟩
  unfold setTeamSize
  split
  · exact ⟨hnA, hnB⟩
  · exact hcap

/-- Witness for `roster_cap_preserved_C1` at a concrete room. -/
theorem roster_cap_preserved_C1_witness :
    capOK (join roomC1 ⟨2, "carol", "bps"⟩ false) ∧
    capOK (changeTeam roomC1 ⟨2, "carol", "bps"⟩ 1) ∧
    capOK (move roomC1 "alice" 1 "") ∧
    capOK (setTeamSize roomC1 3) :=
  roster_cap_preserved_C1 roomC1 ⟨2, "carol", "bps"⟩ false 1 "alice" "" 3
    (by decide) (by decide) (by decide) (by decide)

end ClaimC1

/-! ## Handshake and crash propagation
(`src/src/multiplayer/index.js`, `PixSimHandler` constructor and
`handleCrash`) -/

/-- A JavaScript value as the handshake validation observes it. -/
inductive JSVal where
  | vnull
  | vundefined
  | vbool (b : Bool)
  | vnum (n : Int)
  | vstr (s : String)
  | vobj (fields : List (String × JSVal))

/-- JS `typeof` (note `typeof null == 'object'`). -/
def jsTypeof : JSVal → String
  | .vnull => "object"
  | .vundefined => "undefined"
  | .vbool _ => "boolean"
  | .vnum _ => "number"
  | .vstr _ => "string"
  | .vobj _ => "object"

/-- JS `data === null`. -/
def isNullB : JSVal → Bool
  | .vnull => true
  | _ => false

/-- JS strict equality `v === 's'` against a string literal. -/
def strEqB (v : JSVal) (s : String) : Bool :=
  match v with
  | .vstr t => t == s
  | _ => false

/-- JS property read `v[k]`: throws `TypeError` on `null`/`undefined`,
yields `undefined` for an absent field or a primitive receiver. -/
def jsGet : JSVal → String → Except String JSVal
  | .vnull, k => .error ("TypeError: Cannot read properties of null (reading " ++ k ++ ")")
  | .vundefined, k => .error ("TypeError: Cannot read properties of undefined (reading " ++ k ++ ")")
  | .vobj fields, k => .ok (((fields.find? (fun f => f.1 = k)).map Prod.snd).getD .vundefined)
  | _, _ => .ok .vundefined

/-- The property read collapsed to a value (`undefined` if it would throw);
used only for stating properties, never inside the embedded handler. -/
def jsGetD (v : JSVal) (k : String) : JSVal :=
  match jsGet v k with
  | .ok x => x
  | .error _ => .vundefined

/-- Observable outcome of the `clientInfo` listener for one payload:
the `destroy` reasons issued (in order), whether an exception escaped the
`async` listener, and whether `clientInfoRecieved` was emitted and the
post-handshake routes (`createGame`, `joinGame`, …) registered. -/
structure HandshakeOutcome where
  destroyed : List String
  threw : Bool
  emitted : Bool
  routesRegistered : Bool
deriving DecidableEq, Repr

/-- The `clientInfo` listener (`src/src/multiplayer/index.js` lines
283–306).  Neither `destroy` call is followed by `return`, so execution
continues; `data.client` on `null`/`undefined` throws out of the `async`
listener; the `username` field is never validated; the password `try` block
is empty (the decode call is commented out), so its `catch` — the only path
to `destroy('Invalid encoded password')` — is dead code. -/
def clientInfoListener (data : JSVal) : HandshakeOutcome :=
  let dest1 : List String :=
    if jsTypeof data != "object" || isNullB data then
      ["Invalid connection handshake data - bad data"]
    else []
  match jsGet data "client" with
  | .error _ =>
      { destroyed := dest1, threw := true, emitted := false, routesRegistered := false }
  | .ok c =>
      let dest2 : List String :=
        if !strEqB c "rps" && !strEqB c "bps" && !strEqB c "psp" then
          dest1 ++ ["Invalid connection handshake data - bad client"]
        else dest1
      { destroyed := dest2, threw := false, emitted := true, routesRegistered := true }

/-- The broker's crash-relevant flags (`#active`, `#crashed`). -/
structure BrokerFlags where
  active : Bool
  crashed : Bool
deriving DecidableEq, Repr

/-- `PixSimAPI.close` (`src/src/multiplayer/index.js` lines 249–255):
no-op when already inactive and crashed, otherwise clears `#active`. -/
def brokerClose (b : BrokerFlags) : BrokerFlags :=
  if b.active = false ∧ b.crashed = true then b else { b with active := false }

/-- `handleCrash` (`src/src/multiplayer/index.js` lines 185–194), installed
for `uncaughtException` and `unhandledRejection`: latches `#crashed` and
calls `close()`. -/
def handleCrash (b : BrokerFlags) : BrokerFlags :=
  brokerClose { b with crashed := true }

/-- The broker flags after one connection's `clientInfo` frame is handled:
an exception escaping the `async` listener becomes an unhandled promise
rejection, which reaches the process-level `handleCrash`. -/
def brokerAfterClientInfo (b : BrokerFlags) (data : JSVal) : BrokerFlags :=
  if (clientInfoListener data).threw then handleCrash b else b

section ClaimC6

/-- The claim's validity predicate, stated from the spec's words: the
payload is a record with a string `username` and `client ∈ {rps,bps,psp}`. -/
def specValidClientInfo (data : JSVal) : Bool :=
  (match data with
    | .vobj _ => true
    | _ => false) &&
  (match jsGet data "username" with
    | .ok (.vstr _) => true
    | _ => false) &&
  (match jsGet data "client" with
    | .ok c => strEqB c "rps" || strEqB c "bps" || strEqB c "psp"
    | _ => false)

/-- A payload with a valid client but a numeric `username`. -/
def handshakePayloadC6 : JSVal :=
  .vobj [("username", .vnum 42), ("client", .vstr "rps")]

/-- C6, counterexample.  The listener never checks `username` at all: the
payload `{username: 42, client: 'rps'}` is invalid per the claim (no string
`username`) yet the handler is not destroyed and `clientInfoRecieved` is
emitted. -/
theorem handshake_claim_false_C6 :
    specValidClientInfo handshakePayloadC6 = false ∧
    (clientInfoListener handshakePayloadC6).destroyed = [] ∧
    (clientInfoListener handshakePayloadC6).emitted = true := by
  refine ⟨rfl, rfl, rfl⟩

/-- C6, amended.  The handler is destroyed (with reasons starting
"Invalid connection handshake data") iff the payload's `typeof` is not
`object`, the payload is `null`, or its `client` field is none of
`rps`/`bps`/`psp` — `username` is not validated; an exception escapes the
listener exactly on `null`/`undefined` payloads (the `destroy` calls are
not followed by `return`); whenever no exception escapes,
`clientInfoRecieved` is emitted and the post-handshake routes are
registered, destroyed or not; in particular every object payload with a
valid `client` survives with no destroy. -/
theorem handshake_behavior_C6 (data : JSVal) :
    ((clientInfoListener data).threw = true ↔ (data = .vnull ∨ data = .vundefined)) ∧
    ((clientInfoListener data).destroyed = [] ↔
      (jsTypeof data = "object" ∧ data ≠ .vnull ∧
        (strEqB (jsGetD data "client") "rps" || strEqB (jsGetD data "client") "bps" ||
          strEqB (jsGetD data "client") "psp") = true)) ∧
    ((clientInfoListener data).threw = false →
      (clientInfoListener data).emitted = true ∧
      (clientInfoListener data).routesRegistered = true) ∧
    (∀ reason ∈ (clientInfoListener data).destroyed,
      reason = "Invalid connection handshake data - bad data" ∨
      reason = "Invalid connection handshake data - bad client") := by
  cases data with
  | vnull =>
      refine ⟨?_, ?_, ?_, ?_⟩ <;>
        simp [clientInfoListener, jsGet, jsTypeof, isNullB, strEqB, jsGetD]
  | vundefined =>
      refine ⟨?_, ?_, ?_, ?_⟩ <;>
        simp [clientInfoListener, jsGet, jsTypeof, isNullB, strEqB, jsGetD]
  | vbool b =>
      refine ⟨?_, ?_, ?_, ?_⟩ <;>
        simp [clientInfoListener, jsGet, jsTypeof, isNullB, strEqB, jsGetD]
  | vnum n =>
      refine ⟨?_, ?_, ?_, ?_⟩ <;>
        simp [clientInfoListener, jsGet, jsTypeof, isNullB, strEqB, jsGetD]
  | vstr v =>
      refine ⟨?_, ?_, ?_, ?_⟩ <;>
        simp [clientInfoListener, jsGet, jsTypeof, isNullB, strEqB, jsGetD]
  | vobj fields =>
      have hg : jsGetD (.vobj fields) "client" =
          ((fields.find? (fun f => f.1 = "client")).map Prod.snd).getD .vundefined := rfl
      have hred : clientInfoListener (.vobj fields) =
          { destroyed :=
              if !strEqB (((fields.find? (fun f => f.1 = "client")).map
                   Prod.snd).getD .vundefined) "rps" &&
                 !strEqB (((fields.find? (fun f => f.1 = "client")).map
                   Prod.snd).getD .vundefined) "bps" &&
                 !strEqB (((fields.find? (fun f => f.1 = "client")).map
                   Prod.snd).getD .vundefined) "psp" then
                ["Invalid connection handshake data - bad client"]
              else []
            threw := false
            emitted := true
            routesRegistered := true } := rfl
      rw [hred, hg]
      generalize ((fields.find? (fun f => f.1 = "client")).map Prod.snd).getD .vundefined = c
      cases hr : strEqB c "rps" <;> cases hb : strEqB c "bps" <;>
        cases hp : strEqB c "psp" <;>
          simp [jsTypeof, hr, hb, hp]

/-- Witness for `handshake_behavior_C6` at a concrete payload: a valid
object payload `{client: 'bps'}` survives, emits and registers routes. -/
theorem handshake_behavior_C6_witness :
    (clientInfoListener (.vobj [("client", .vstr "bps")])).threw = false ∧
    (clientInfoListener (.vobj [("client", .vstr "bps")])).emitted = true := by
  have h := handshake_behavior_C6 (.vobj [("client", .vstr "bps")])
  exact ⟨by rfl, (h.2.2.1 (by rfl)).1⟩

end ClaimC6

section ClaimC7

/-- C7 (code defect).  A malformed `clientInfo` payload of `null` passes
`typeof data != 'object' || data === null` into a `destroy` call that is
not followed by `return`; the subsequent `data.client` read throws a
`TypeError` inside the `async` listener, the rejection reaches the
process-level `handleCrash`, and the broker latches `crashed = true` and
closes (`active = false`) — the API stops accepting connections, contrary
to the claim that a per-connection error never deactivates the broker. -/
theorem clientInfo_null_crashes_broker_C7 :
    (clientInfoListener .vnull).threw = true ∧
    (brokerAfterClientInfo ⟨true, false⟩ .vnull).crashed = true ∧
    (brokerAfterClientInfo ⟨true, false⟩ .vnull).active = false := by
  refine ⟨rfl, rfl, rfl⟩

end ClaimC7

/-! ## Tick and input relay (`src/src/multiplayer/index.js`,
`Room.#handleTick` and `Room.#handleInput`) -/

/-- A room member as the relay observes it: its connection identity and
its dialect (`clientType`). -/
structure Member where
  mid : Nat
  clientType : String
deriving DecidableEq, Repr

/-- The per-dialect conversion cached within one tick: the (possibly
translated) grid and `teamPixelAmounts`. -/
structure TickConversion where
  grid : List (Fin 256)
  pixels : List (List Int)
deriving DecidableEq, Repr

/-- The remap of one `teamPixelAmounts` entry
(`src/src/multiplayer/index.js` lines 729–735):
`for (let n in arr) if (arr[n] !== 0) mappedArr[convertSingle(n, …)] = …`.
The converter in use (`src/unnamed/part_011`) defines `convert` but no
`convertSingle`, so the first nonzero amount raises
`TypeError: … convertSingle is not a function`; an all-zero (or empty)
entry produces an empty array. -/
def remapPixelArr (arr : List Int) : Except String (List Int) :=
  if arr.all (· == 0) then Except.ok []
  else Except.error "TypeError: this.#api.pixelConverter.convertSingle is not a function"

/-- `tick.data.teamPixelAmounts.map(...)` with the throwing remap. -/
def remapPixels (tpa : List (List Int)) : Except String (List (List Int)) :=
  tpa.mapM remapPixelArr

/-- The conversion computed for one receiver dialect on a cache miss
(`src/src/multiplayer/index.js` lines 727–736): the grid through
`convertGrid`, then the pixel amounts through the remap; the object
literal evaluates `grid` first. -/
def computeConversion (st : ConverterState) (hostType memberType : String)
    (grid : List (Fin 256)) (tpa : List (List Int)) :
    Except String TickConversion :=
  match convertGrid st grid hostType memberType with
  | .error e => .error e
  | .ok g =>
      match remapPixels tpa with
      | .error e => .error e
      | .ok p => .ok ⟨g, p⟩

/-- The member loop of `Room.#handleTick` (`src/src/multiplayer/index.js`
lines 719–750): the per-tick cache is seeded with the host's dialect
mapping to the unconverted grid and pixel amounts; each non-host member
receives the cached conversion for its dialect, computing it on a miss;
an exception thrown mid-iteration aborts the remaining sends.  Returns the
`tick` sends performed (member id, frame) and the escaped error, if any. -/
def handleTick (st : ConverterState) (host : Member) (members : List Member)
    (grid : List (Fin 256)) (tpa : List (List Int)) :
    List (Nat × TickConversion) × Option String :=
  go members [(host.clientType, ⟨grid, tpa⟩)] []
where
  go : List Member → List (String × TickConversion) → List (Nat × TickConversion) →
      List (Nat × TickConversion) × Option String
  | [], _, sends => (sends.reverse, none)
  | m :: rest, cache, sends =>
      if m = host then go rest cache sends
      else
        match cache.find? (fun e => e.1 = m.clientType) with
        | some e => go rest cache ((m.mid, e.2) :: sends)
        | none =>
            match computeConversion st host.clientType m.clientType grid tpa with
            | .error e => (sends.reverse, some e)
            | .ok conv =>
                go rest ((m.clientType, conv) :: cache) ((m.mid, conv) :: sends)

section ClaimC5

/-- A host on dialect `rps`. -/
def hostC5 : Member := ⟨0, "rps"⟩

/-- C5 (code defect).  With every member on the host's dialect the relay
behaves as claimed: the seeded cache forwards the grid and pixel amounts
unchanged and each non-host member receives exactly one frame.  But the
first member on a different loaded dialect makes the relay call
`convertGrid` — which throws `ReferenceError` on any non-empty grid
(`compressed` is undeclared) — or, for the pixel amounts,
`convertSingle` — which does not exist on the converter — so the tick
aborts and that member (and all members after it) receives nothing,
contrary to "every non-host member receives exactly one tick frame". -/
theorem handleTick_C5 :
    (handleTick stExample hostC5 [hostC5, ⟨1, "rps"⟩, ⟨2, "rps"⟩] [7] [[0]] =
      ([(1, ⟨[7], [[0]]⟩), (2, ⟨[7], [[0]]⟩)], none)) ∧
    (handleTick stExample hostC5 [hostC5, ⟨1, "rps"⟩, ⟨2, "bps"⟩] [7] [[0]] =
      ([(1, ⟨[7], [[0]]⟩)],
        some "ReferenceError: compressed is not defined")) := by
  refine ⟨rfl, rfl⟩

end ClaimC5

/-- What `Room.#handleInput` does with one (well-typed) input frame:
kick the sender, relay a frame to the host, or throw. -/
inductive InputOutcome where
  | kickSender (reason : String)
  | sendToHost (itype : Nat) (team : Nat) (idata : List Int)
  | threw (msg : String)
deriving DecidableEq, Repr

/-- `Buffer.from(array)`: each JS number is wrapped to a byte. -/
def toByte (v : Int) : Fin 256 :=
  ⟨(v % 256).toNat, by
    have h1 : 0 ≤ v % 256 := Int.emod_nonneg v (by decide)
    have h2 : v % 256 < 256 := Int.emod_lt_of_pos v (by decide)
    omega⟩

/-- `Room.#handleInput` (`src/src/multiplayer/index.js` lines 764–802) on a
payload that passed the shape check (`type` a number, `data` an array), in
the `forward = true` mode used for a direct `input` frame.  Type 0 inputs
of length 6 with `data[5] != -1` call the non-existent `convertSingle`
(TypeError); type 1 inputs with even length or length < 3 kick the sender;
otherwise the tail `data.slice(1)` is passed through `convertGrid` toward
the host's dialect and the result is sent to the host. -/
def handleInput (st : ConverterState) (senderType hostType : String) (team : Nat)
    (itype : Nat) (idata : List Int) : InputOutcome :=
  match itype with
  | 0 =>
      if idata.length ≠ 6 then .kickSender "Invalid game tick data"
      else if idata.getD 5 0 ≠ -1 then
        .threw "TypeError: this.#api.pixelConverter.convertSingle is not a function"
      else .sendToHost 0 team idata
  | 1 =>
      if idata.length % 2 ≠ 1 ∨ idata.length < 3 then
        .kickSender "Invalid game tick data"
      else
        match convertGrid st ((idata.drop 1).map toByte) senderType hostType with
        | .error e => .threw e
        | .ok g => .sendToHost 1 team (idata.headD 0 :: g.map (fun b => (b.val : Int)))
  | _ => .kickSender "Invalid game tick data"

section ClaimC10

/-- C10, even-or-short type-1 inputs kick the sender (never the host) with
reason "Invalid game tick data", for every converter state, dialect pair
and team. -/
theorem inputType1_validation_C10 (st : ConverterState)
    (senderType hostType : String) (team : Nat) (idata : List Int)
    (hbad : idata.length % 2 ≠ 1 ∨ idata.length < 3) :
    handleInput st senderType hostType team 1 idata =
      .kickSender "Invalid game tick data" := by
  unfold handleInput
  rw [if_pos hbad]

/-- Witness for `inputType1_validation_C10`: the even-length payload
`[0, 5]` kicks the sender. -/
theorem inputType1_validation_C10_witness :
    handleInput stExample "bps" "rps" 0 1 [0, 5] =
      .kickSender "Invalid game tick data" :=
  inputType1_validation_C10 stExample "bps" "rps" 0 [0, 5] (by decide)

/-- C10 (code defect in the relay half).  A well-formed type-1 input (odd
length ≥ 3) between two loaded dialects is not "translated and relayed":
its tail goes through `convertGrid`, which throws `ReferenceError` on any
non-empty buffer (`compressed` is undeclared), so nothing reaches the host
and the error escapes the listener. -/
theorem inputType1_throws_C10 :
    handleInput stExample "bps" "rps" 0 1 [0, 5, 6] =
      .threw "ReferenceError: compressed is not defined" := by
  rfl

end ClaimC10

/-! ## Map parsing, `bps` format (`src/src/multiplayer/maps.js`,
`MapManager.#addMap`, case `'bps'`) -/

/-- Base-36 digit value, as `parseInt(_, 36)` accepts (case-insensitive). -/
def digit36 (c : Char) : Option Nat :=
  if c.isDigit then some (c.toNat - '0'.toNat)
  else if 'a' ≤ c ∧ c ≤ 'z' then some (c.toNat - 'a'.toNat + 10)
  else if 'A' ≤ c ∧ c ≤ 'Z' then some (c.toNat - 'A'.toNat + 10)
  else none

/-- `parseInt(s, 36)` on the bare digit-run tokens that occur in map data:
parses the longest digit prefix, `none` embeds `NaN` (no digits). -/
def parseInt36 (s : String) : Option Nat :=
  let ds := s.data.takeWhile (fun c => (digit36 c).isSome)
  if ds.isEmpty then none
  else some (ds.foldl (fun acc c => acc * 36 + (digit36 c).getD 0) 0)

/-- `s.split(sep)` for a one-character separator (structural worker). -/
def splitOnCharAux (sep : Char) : List Char → List Char → List String
  | [], cur => [String.mk cur.reverse]
  | c :: rest, cur =>
      if c = sep then String.mk cur.reverse :: splitOnCharAux sep rest []
      else splitOnCharAux sep rest (c :: cur)

/-- JS `s.split(sep)` for a one-character separator. -/
def splitOnChar (sep : Char) (s : String) : List String :=
  splitOnCharAux sep s.data []

/-- `s.split(':')` followed by `tokens.pop()`, then per token
`t = str.split('-')` with pixel `t[0]` and count `parseInt(t[1] ?? 1, 36)`
(`?? 1` supplies the number 1 when there is no `-` part; a `NaN` count runs
the expansion loop zero times, embedded as count 0). -/
def parseRuns36 (s : String) : List (String × Nat) :=
  ((splitOnChar ':' s).dropLast).map (fun str =>
    let t := splitOnChar '-' str
    (t.headD "",
      match t.get? 1 with
      | none => 1
      | some cnt => (parseInt36 cnt).getD 0))

/-- A JS array as the expansion writes it: a length (grown past the end by
out-of-range writes) and a partial map, `none` embedding an unset hole. -/
structure JsArr where
  len : Nat
  val : Nat → Option String

/-- `a[i] = v` on a JS array: sets the cell and grows `length` to `i + 1`
when writing past the end. -/
def jsArrWrite (a : JsArr) (i : Nat) (v : String) : JsArr :=
  ⟨max a.len (i + 1), fun j => if j = i then some v else a.val j⟩

/-- Write `v` into `n` consecutive cells starting at `i`
(the `for (let j = 0; j < n; j++) grid[i++] = t[0];` inner loop). -/
def writeRun (a : JsArr) (i : Nat) (v : String) : Nat → JsArr
  | 0 => a
  | n + 1 => writeRun (jsArrWrite a i v) (i + 1) v n

/-- Expand a run list into a JS array starting at index `i`, returning the
array and the final value of the shared index `i`. -/
def expandRuns (runs : List (String × Nat)) (a : JsArr) (i : Nat) : JsArr × Nat :=
  match runs with
  | [] => (a, i)
  | (px, n) :: rest => expandRuns rest (writeRun a i px n) (i + n)

/-- JS string concatenation `curr1 + curr2` where either side may be
`undefined` (which stringifies to `"undefined"`). -/
def jsConcatU (a b : Option String) : String :=
  a.getD "undefined" ++ b.getD "undefined"

/-- The two flat grids built by the `bps` branch
(`src/src/multiplayer/maps.js` lines 136–156): `grid1` from `data` and
`grid2` from `rotationData`, both allocated `new Array(width * height)` —
but the shared expansion index `i` is **not** reset between the two loops,
so `grid2`'s writes start at the index where `data`'s expansion ended. -/
def bpsGrids (width height : Nat) (data rotationData : String) : JsArr × JsArr :=
  let g0 : JsArr := ⟨width * height, fun _ => none⟩
  let (grid1, i1) := expandRuns (parseRuns36 data) g0 0
  let (grid2, _) := expandRuns (parseRuns36 rotationData) g0 i1
  (grid1, grid2)

/-- One pass of the pairing loop (`src/src/multiplayer/maps.js` lines
157–168), structurally on the remaining iteration count: at each index a
changed `(pixel, rotation)` pair flushes the previous run keyed by the
concatenation `curr1 + curr2` through `convertStr(_, 'bps', 'standard')`;
the run in progress when the loop ends is never flushed. -/
def bpsPairGo (st : ConverterState) (g1 g2 : JsArr) :
    Nat → Nat → Nat → Option String → Option String →
    List (Option String × Nat) → List (Option String × Nat)
  | 0, _, _, _, _, acc => acc.reverse
  | fuel + 1, i, len, curr1, curr2, acc =>
      if g1.val i ≠ curr1 ∨ curr2 ≠ g2.val i then
        bpsPairGo st g1 g2 fuel (i + 1) 1 (g1.val i) (g2.val i)
          ((convertStr st (jsConcatU curr1 curr2) "bps" "standard", len) :: acc)
      else bpsPairGo st g1 g2 fuel (i + 1) (len + 1) curr1 curr2 acc

/-- The canonical run list `mapData.data` produced by the `bps` branch
for one map (first element of each pushed pair is the `convertStr` result,
`none` embedding JS `null`). -/
def addMapBpsData (st : ConverterState) (width height : Nat)
    (data rotationData : String) : List (Option String × Nat) :=
  let (g1, g2) := bpsGrids width height data rotationData
  bpsPairGo st g1 g2 g1.len 0 0 (g1.val 0) (g2.val 0) []

section ClaimC8

/-- A converter state whose id tables can resolve the pair `"1" + "0"` of
the C8 example map, so the empty output cannot be blamed on a missing
table. -/
def stC8 : ConverterState where
  tables := fun _ => none
  idTables := fun d =>
    if d = "bps" then
      some ⟨fun s => if s = "10" then some 1 else none, fun _ => none⟩
    else if d = "standard" then
      some ⟨fun _ => none, fun n => if n = 1 then some "stone" else none⟩
    else none

/-- C8 (code defect).  For the 2-cell `bps` map `data = "1-2:"`,
`rotationData = "0-2:"` (pixel `1` with rotation `0` in every cell), the
claim requires two flat length-2 arrays paired per index, i.e. one run of
length 2 keyed `"10"`.  Instead: the expansion index is not reset, so the
rotation values land at indices 2 and 3 of `grid2` while indices 0 and 1
stay `undefined`; and since the uniform pair never changes, the final run
is never flushed and the produced run list is empty, covering 0 of the 2
cells. -/
theorem addMapBps_C8 :
    (bpsGrids 2 1 "1-2:" "0-2:").1.val 0 = some "1" ∧
    (bpsGrids 2 1 "1-2:" "0-2:").1.val 1 = some "1" ∧
    (bpsGrids 2 1 "1-2:" "0-2:").2.val 0 = none ∧
    (bpsGrids 2 1 "1-2:" "0-2:").2.val 2 = some "0" ∧
    convertStr stC8 "10" "bps" "standard" = some "stone" ∧
    addMapBpsData stC8 2 1 "1-2:" "0-2:" = [] := by
  refine ⟨rfl, rfl, rfl, rfl, rfl, rfl⟩

end ClaimC8

/-! ## PixSimAssembly compiler (`src/src/multiplayer/controllers.js`,
`PixSimAssemblyCompiler.compile`) -/

/-- Compiler failures: `PixSimAssemblySyntaxError`, `PixSimAssemblyPixelIdError`,
and `hang` embedding non-termination of the source's tokenizer (its
fall-through branch never advances `i`), surfaced when the iteration fuel —
always sufficient for terminating runs — is exhausted. -/
inductive CompileError where
  | syntaxError (msg : String)
  | pixelIdError (msg : String)
  | hang
deriving DecidableEq, Repr

/-- An element of the tokenizer's `layer` array: a string, or a nested
sub-expression array. -/
inductive ExprTok where
  | str (s : String)
  | sub (l : List ExprTok)

mutual

/-- JS stringification of a layer element (arrays join with commas), as the
loose comparisons `exparr[i + 2] != ']>'` and the `'-'` lookahead regex
observe it. -/
def tokToString : ExprTok → String
  | .str s => s
  | .sub l => tokListToString l

/-- JS `Array.prototype.toString`. -/
def tokListToString : List ExprTok → String
  | [] => ""
  | [t] => tokToString t
  | t :: ts => tokToString t ++ "," ++ tokListToString ts

end

/-- `line.split('//')[0]`: the characters before the first `//`. -/
def beforeComment : List Char → List Char
  | [] => []
  | '/' :: '/' :: _ => []
  | c :: rest => c :: beforeComment rest

/-- JS `String.prototype.trim` (the whitespace that occurs in scripts). -/
def jsTrim (s : String) : String :=
  String.mk (((s.data.dropWhile Char.isWhitespace).reverse.dropWhile
    Char.isWhitespace).reverse)

/-- Structural worker for `idxPlus1`. -/
def idxPlus1Go (c : Char) : List Char → Nat → Nat
  | [], _ => 0
  | d :: rest, i => if d = c then i + 1 else idxPlus1Go c rest (i + 1)

/-- `token.indexOf(c, start) + 1`, i.e. 0 when absent (the `+ 1` convention
the tokenizer uses on `indexOf` results). -/
def idxPlus1 (chars : List Char) (c : Char) (start : Nat) : Nat :=
  idxPlus1Go c (chars.drop start) start

/-- `token.substring(i, j)` (indices may exceed the length). -/
def jsSubstring (chars : List Char) (i j : Nat) : String :=
  String.mk ((chars.drop i).take (j - i))

/-- Search test for `/<[A-Za-z][A-Za-z\d]*?>/`: some `<` is followed by a
letter, a run of alphanumerics and a `>`. -/
def accessPatTest : List Char → Bool
  | [] => false
  | '<' :: rest =>
      (match rest with
        | c :: tail =>
            c.isAlpha &&
              (match tail.dropWhile (fun d => d.isAlphanum) with
                | '>' :: _ => true
                | _ => false)
        | [] => false) ||
      accessPatTest rest
  | _ :: rest => accessPatTest rest

/-- Search test for a pattern `a.*p`: some occurrence of `a` has a later
character satisfying `p`. -/
def chBefore (a : Char) (p : Char → Bool) : List Char → Bool
  | [] => false
  | c :: rest => (c = a && rest.any p) || chBefore a p rest

/-- First characters of the two-character operator alternatives
`+. -. *. /. %. ^. >. <. !. ~.` of the tokenizer's operator regex. -/
def opStartChar (c : Char) : Bool :=
  c = '+' || c = '-' || c = '*' || c = '/' || c = '%' || c = '^' ||
  c = '>' || c = '<' || c = '!' || c = '~'

/-- The double-character operators recognised by
`/>=|<=|==|!=|&&|\|\||~=|~>|~</`. -/
def isDoubleOp (a b : Char) : Bool :=
  (a = '>' && b = '=') || (a = '<' && b = '=') || (a = '=' && b = '=') ||
  (a = '!' && b = '=') || (a = '&' && b = '&') || (a = '|' && b = '|') ||
  (a = '~' && b = '=') || (a = '~' && b = '>') || (a = '~' && b = '<')

/-- The character class `[+\-*\/%^<>!=&\|~()\]]` that ends the lazy match
`/^.+?[…]/` of the tokenizer's fallback branch. -/
def fallClass (c : Char) : Bool :=
  c = '+' || c = '-' || c = '*' || c = '/' || c = '%' || c = '^' ||
  c = '<' || c = '>' || c = '!' || c = '=' || c = '&' || c = '|' ||
  c = '~' || c = '(' || c = ')' || c = ']'

/-- The character class `/^[\+\-*\/%^<>=!&\|~()[\]]$/` of the single-
operator fallback (adds `[`). -/
def singleOpClass (c : Char) : Bool :=
  fallClass c || c = '['

/-- The smallest `k ≥ 1` with `chars[k]` in the fallback class — the length
of the lazy match `/^.+?[…]/` minus one (`none` embeds a null match). -/
def lazyOpIndex (chars : List Char) : Option Nat :=
  go 1 (chars.drop 1)
where
  go (k : Nat) : List Char → Option Nat
    | [] => none
    | c :: rest => if fallClass c then some k else go (k + 1) rest

/-- `tokenizeExpression` (`src/src/multiplayer/controllers.js` lines
200–267), structurally on an iteration fuel (the source's `while` loop; its
`console.log` fall-through branch does not advance `i` and therefore loops
forever, which exhausts the fuel and yields `hang`).  Returns the `layer`
and `i + 1` exactly as the source does. -/
def tokenizeExpressionGo (lineNo : Nat) :
    Nat → List Char → Nat → List ExprTok → Except CompileError (List ExprTok × Nat)
  | 0, _, _, _ => .error .hang
  | fuel + 1, chars, i, layer =>
      if i < chars.length then
        let char := chars.getD i ' '
        if i + 1 < chars.length && char = '<' && (chars.getD (i + 1) ' ').isAlpha then
          let nextBracket := idxPlus1 chars '[' (i + 1)
          let nextAccessClose := idxPlus1 chars '>' (i + 1)
          if nextAccessClose = 0 then
            .error (.syntaxError s!"Unexpected end of expression (line {lineNo + 1})")
          else if nextBracket > 0 && nextBracket < nextAccessClose then
            if chars.getD nextBracket ' ' = 'L' && chars.getD (nextBracket + 1) ' ' = ']' then
              tokenizeExpressionGo lineNo fuel chars (nextBracket + 3)
                (layer ++ [.str (jsSubstring chars i nextBracket), .sub [.str "L"], .str "]>"])
            else
              match tokenizeExpressionGo lineNo fuel (chars.drop nextBracket) 0 [] with
              | .error e => .error e
              | .ok (sub, consumed) =>
                  tokenizeExpressionGo lineNo fuel chars (nextBracket + consumed + 1)
                    (layer ++ [.str (jsSubstring chars i nextBracket), .sub sub, .str "]>"])
          else if accessPatTest (jsSubstring chars i nextAccessClose).data then
            tokenizeExpressionGo lineNo fuel chars nextAccessClose
              (layer ++ [.str (jsSubstring chars i nextAccessClose)])
          else
            -- `console.log(…)` fall-through: `i` is not advanced
            tokenizeExpressionGo lineNo fuel chars i layer
        else if char = '"' then
          let endQuote := idxPlus1 chars '"' (i + 1)
          if endQuote = 0 then
            .error (.syntaxError s!"Unexpected end of expression (line {lineNo + 1})")
          else
            tokenizeExpressionGo lineNo fuel chars endQuote
              (layer ++ [.str (jsSubstring chars i endQuote)])
        else if char = '\x7b' then
          let endBracket := idxPlus1 chars '\x7d' (i + 1)
          if endBracket = 0 then
            .error (.syntaxError s!"Unexpected end of expression (line {lineNo + 1})")
          else
            tokenizeExpressionGo lineNo fuel chars endBracket
              (layer ++ [.str (jsSubstring chars i endBracket)])
        else if char = '(' then
          match tokenizeExpressionGo lineNo fuel (chars.drop (i + 1)) 0 [] with
          | .error e => .error e
          | .ok (sub, consumed) =>
              tokenizeExpressionGo lineNo fuel chars (i + consumed + 2)
                (layer ++ [.sub sub])
        else if char = ')' || char = '\x7d' || char = ']' then
          .ok (layer, i + 1)
        else if i + 1 < chars.length &&
            (opStartChar char ||
              ((char = '=' && chars.getD (i + 1) ' ' = '=') ||
               (char = '&' && chars.getD (i + 1) ' ' = '&') ||
               (char = '|' && chars.getD (i + 1) ' ' = '|'))) then
          if isDoubleOp char (chars.getD (i + 1) ' ') then
            tokenizeExpressionGo lineNo fuel chars (i + 2)
              (layer ++ [.str (jsSubstring chars i (i + 2))])
          else
            tokenizeExpressionGo lineNo fuel chars (i + 1)
              (layer ++ [.str (String.mk [char])])
        else
          let remain := chars.drop i
          match lazyOpIndex remain with
          | some k =>
              tokenizeExpressionGo lineNo fuel chars (i + k)
                (layer ++ [.str (String.mk (remain.take k))])
          | none =>
              if !(remain.length = 1 && singleOpClass (remain.getD 0 ' ')) then
                tokenizeExpressionGo lineNo fuel chars (i + remain.length)
                  (layer ++ [.str (String.mk remain)])
              else
                tokenizeExpressionGo lineNo fuel chars (i + 1)
                  (layer ++ [.str (String.mk [char])])
      else .ok (layer, i + 1)

/-- Tokenize one whitespace-delimited token (`tokenizeExpression(t)[0]`,
with fuel that covers every terminating run). -/
def tokenizeExpression (lineNo : Nat) (t : String) :
    Except CompileError (List ExprTok × Nat) :=
  tokenizeExpressionGo lineNo (2 * t.length + 4) t.data 0 []

/-- `exp.substring(1, exp.length - 1)` with `"` escaped
(`replaceAll('"', '\\"')`). -/
def stripEnds (s : String) : String :=
  String.mk ((s.data.drop 1).dropLast)

/-- `replaceAll('"', '\\"')`. -/
def escapeQuotes (s : String) : String :=
  String.mk (s.data.foldr (fun c acc => if c = '"' then '\\' :: '"' :: acc else c :: acc) [])

/-- `!isNaN(parseFloat(exp))`: after optional whitespace and sign, the
token begins with a digit, a dot followed by a digit, or `Infinity`. -/
def jsParseFloatOk (s : String) : Bool :=
  let cs := s.data.dropWhile Char.isWhitespace
  let cs2 := match cs with
    | '+' :: r => r
    | '-' :: r => r
    | r => r
  (match cs2 with
    | c :: _ => c.isDigit
    | [] => false) ||
  (match cs2 with
    | '.' :: c :: _ => c.isDigit
    | _ => false) ||
  decide (cs2.take 8 = "Infinity".data)

/-- Search test for `/\-?\d+\.?\d*/`: the stringified lookahead contains a
digit. -/
def containsDigit (s : String) : Bool :=
  s.data.any Char.isDigit

/-- `parseExpression` (`src/src/multiplayer/controllers.js` lines 335–444),
structurally on a fuel that covers the loop over `exparr` and the nested
recursive calls.  The state mirrors the source's `ret`, `closeStr`,
`closeTimer` (an integer: it is decremented every iteration) and `lastExp`. -/
def parseExpGo (lineNo : Nat) :
    Nat → List ExprTok → Option String → Int → Nat → String →
    Except CompileError String
  | 0, _, _, _, _, _ => .error .hang
  | fuel + 1, exparr, closeStr0, closeTimer0, lastExp, ret0 =>
      match exparr with
      | [] =>
          match closeStr0 with
          | some cs =>
              if closeTimer0 > 0 then
                .error (.syntaxError s!"Unexpected end of expression (line {lineNo + 1})")
              else if lastExp = 1 then
                .error (.syntaxError s!"Unexpected end of expression (line {lineNo + 1})")
              else .ok (ret0 ++ cs)
          | none =>
              if lastExp = 1 then
                .error (.syntaxError s!"Unexpected end of expression (line {lineNo + 1})")
              else .ok ret0
      | exp :: rest =>
          let flushed : String × Option String :=
            match closeStr0 with
            | some cs => if closeTimer0 = 0 then (ret0 ++ cs, none) else (ret0, some cs)
            | none => (ret0, none)
          let ret := flushed.1
          let closeStr := flushed.2
          let closeTimer := closeTimer0 - 1
          match exp with
          | .sub l =>
              match parseExpGo lineNo fuel l none 0 1 "" with
              | .error e => .error e
              | .ok inner =>
                  let piece :=
                    if closeStr = some ")" && closeTimer = 0 then "(" ++ inner
                    else "(" ++ inner ++ ")"
                  parseExpGo lineNo fuel rest closeStr closeTimer 0 (ret ++ piece)
          | .str s =>
              if chBefore '<' (fun c => c = '>' || c = '[') s.data then
                if chBefore '<' (fun c => c = '[') s.data then
                  match rest with
                  | .sub l :: nxt :: rest2 =>
                      if tokToString nxt != "]>" then
                        .error (.syntaxError
                          s!"Unexpected end of expression (line {lineNo + 1})")
                      else
                        match parseExpGo lineNo fuel l none 0 1 "" with
                        | .error e => .error e
                        | .ok idxStr =>
                            parseExpGo lineNo fuel rest2 closeStr closeTimer 0
                              (ret ++ "getArray(\"" ++ escapeQuotes (stripEnds s) ++
                                "\"," ++ idxStr ++ ")")
                  | _ =>
                      .error (.syntaxError
                        s!"Unexpected end of expression (line {lineNo + 1})")
                else
                  parseExpGo lineNo fuel rest closeStr closeTimer 0
                    (ret ++ "getVariable(\"" ++ escapeQuotes (stripEnds s) ++ "\")")
              else if chBefore '\x7b' (fun c => c = '\x7d') s.data then
                parseExpGo lineNo fuel rest closeStr closeTimer 0 (ret ++ s)
              else if chBefore '"' (fun c => c = '"') s.data then
                parseExpGo lineNo fuel rest closeStr closeTimer 0
                  (ret ++ "\"" ++ escapeQuotes (stripEnds s) ++ "\"")
              else if jsParseFloatOk s then
                if lastExp = 0 then
                  .error (.syntaxError s!"Unexpected value \x27{s}\x27 (line {lineNo + 1})")
                else parseExpGo lineNo fuel rest closeStr closeTimer 0 (ret ++ s)
              else if s = "-" then
                if lastExp = 1 &&
                    (match rest with
                      | [] => true
                      | nxt :: _ => !containsDigit (tokToString nxt)) then
                  .error (.syntaxError
                    s!"Unexpected operator \x27{s}\x27 (line {lineNo + 1})")
                else parseExpGo lineNo fuel rest closeStr closeTimer 1 (ret ++ s)
              else if s = "+" || s = "*" || s = "/" || s = "%" || s = ">" || s = "<" ||
                  s = ">=" || s = "<=" || s = "&&" || s = "||" || s = "!" then
                if lastExp = 1 then
                  .error (.syntaxError
                    s!"Unexpected operator \x27{s}\x27 (line {lineNo + 1})")
                else parseExpGo lineNo fuel rest closeStr closeTimer 1 (ret ++ s)
              else if s = "==" then
                if lastExp = 1 then
                  .error (.syntaxError
                    s!"Unexpected operator \x27{s}\x27 (line {lineNo + 1})")
                else parseExpGo lineNo fuel rest closeStr closeTimer 1 (ret ++ "===")
              else if s = "!=" then
                if lastExp = 1 then
                  .error (.syntaxError
                    s!"Unexpected operator \x27{s}\x27 (line {lineNo + 1})")
                else parseExpGo lineNo fuel rest closeStr closeTimer 1 (ret ++ "!==")
              else if s = "^" then
                if lastExp = 1 then
                  .error (.syntaxError
                    s!"Unexpected operator \x27{s}\x27 (line {lineNo + 1})")
                else parseExpGo lineNo fuel rest closeStr closeTimer 1 (ret ++ "**")
              else if s = "~=" then
                parseExpGo lineNo fuel rest (some ")") 1 1 (ret ++ "Math.round(")
              else if s = "~>" then
                parseExpGo lineNo fuel rest (some ")") 1 1 (ret ++ "Math.ceil(")
              else if s = "~<" then
                parseExpGo lineNo fuel rest (some ")") 1 1 (ret ++ "Math.floor(")
              else
                if lastExp = 0 then
                  .error (.syntaxError s!"Unexpected value \x27{s}\x27 (line {lineNo + 1})")
                else
                  parseExpGo lineNo fuel rest closeStr closeTimer 0
                    (ret ++ "\"" ++ escapeQuotes s ++ "\"")

/-- The `#instructions` lowering table
(`src/src/multiplayer/controllers.js` lines 130–148). -/
def instructions : String → Option String
  | "WRITE" => some "setVariable"
  | "DEFARR" => some "defArray"
  | "WRITEARR" => some "setArray"
  | "FNCALL" => some "await callFunction"
  | "WAIT" => some "await wait"
  | "PRINT" => some "print"
  | "SETPX" => some "await setPixel"
  | "GETPX" => some "await getPixel"
  | "SETAM" => some "await setAmount"
  | "GETAM" => some "await getAmount"
  | "CMOVE" => some "moveCamera"
  | "CSHAKE" => some "shakeCamera"
  | "WIN" => some "triggerWin"
  | "SOUND" => some "playSound"
  | "STARTSIM" => some "startSim"
  | "STOPSIM" => some "stopSim"
  | "TICK" => some "await awaitTick"
  | _ => none

/-- The `#instructionParamCounts` table (lines 149–167); the inner `none`
embeds `Infinity`. -/
def instructionParamCounts : String → Option (Option (List Nat))
  | "WRITE" => some (some [2])
  | "DEFARR" => some (some [2, 3])
  | "WRITEARR" => some (some [3])
  | "FNCALL" => some none
  | "WAIT" => some (some [1])
  | "PRINT" => some none
  | "SETPX" => some (some [3])
  | "GETPX" => some (some [2])
  | "SETAM" => some (some [3])
  | "GETAM" => some (some [2])
  | "CMOVE" => some (some [3, 4])
  | "CSHAKE" => some (some [3])
  | "WIN" => some (some [1])
  | "SOUND" => some (some [3, 4])
  | "STARTSIM" => some (some [0, 1])
  | "STOPSIM" => some (some [0])
  | "TICK" => some (some [0])
  | _ => none

/-- The outcome of the per-line instruction dispatch
(`src/src/multiplayer/controllers.js` lines 270–333): the output prefix,
the `isOpenBlock` and `isFunctionCall` flags, the argument-count constraint
(`none` = `Infinity`) and the updated block stack (stack top at the head;
JS pushes/reads/pops at the array's end). -/
structure LineDispatch where
  out : String
  isOpenBlock : Nat
  isFunctionCall : Bool
  argCount : Option (List Nat)
  stack : List Nat
deriving Repr

/-- The instruction `switch` (lines 274–333).  `FUNCTION` throws on zero
expressions (after its push, which the abort makes unobservable); `ELSE`,
`ELIF` require a conditional (`0`) on top of the stack; `BREAK`/`CONTINUE`
require a non-conditional; `END` pops, closing `2`/`3` blocks with `});`
and the rest with a brace. -/
def dispatchInstr (lineNo : Nat) (instr : String) (nExprs : Nat)
    (stack : List Nat) : Except CompileError LineDispatch :=
  match instructions instr with
  | some fname =>
      .ok ⟨fname, 0, true, (instructionParamCounts instr).getD (some []), stack⟩
  | none =>
      match instr with
      | "IF" => .ok ⟨"if(", 1, false, some [1], 0 :: stack⟩
      | "ELSE" =>
          match stack with
          | [] => .error (.syntaxError s!"Illegal ELSE switch (line {lineNo + 1})")
          | top :: _ =>
              if top ≠ 0 then
                .error (.syntaxError s!"Illegal ELSE switch (line {lineNo + 1})")
              else .ok ⟨"\x7delse\x7b", 0, false, some [0], stack⟩
      | "ELIF" =>
          match stack with
          | [] => .error (.syntaxError s!"Illegal ELIF switch (line {lineNo + 1})")
          | top :: _ =>
              if top ≠ 0 then
                .error (.syntaxError s!"Illegal ELIF switch (line {lineNo + 1})")
              else .ok ⟨"\x7delse if(", 1, false, some [1], stack⟩
      | "WHILE" => .ok ⟨"while(", 1, false, some [1], 1 :: stack⟩
      | "FOR" => .ok ⟨"await forEach(", 2, false, some [2], 2 :: stack⟩
      | "BREAK" =>
          match stack with
          | [] => .error (.syntaxError s!"Illegal BREAK instruction (line {lineNo + 1})")
          | top :: _ =>
              if top = 0 then
                .error (.syntaxError s!"Illegal BREAK instruction (line {lineNo + 1})")
              else .ok ⟨"break;", 0, false, some [0], stack⟩
      | "CONTINUE" =>
          match stack with
          | [] => .error (.syntaxError s!"Illegal CONTINUE instruction (line {lineNo + 1})")
          | top :: _ =>
              if top = 0 then
                .error (.syntaxError s!"Illegal CONTINUE instruction (line {lineNo + 1})")
              else .ok ⟨"continue;", 0, false, some [0], stack⟩
      | "FUNCTION" =>
          if nExprs = 0 then
            .error (.syntaxError s!"Invalid argument count (line {lineNo + 1})")
          else .ok ⟨"defFunction(", 2, false, none, 2 :: stack⟩
      | "END" =>
          match stack with
          | [] => .error (.syntaxError s!"Illegal END instruction (line {lineNo + 1})")
          | prev :: rest =>
              .ok ⟨if prev = 2 ∨ prev = 3 then "\x7d);" else "\x7d", 0, false,
                some [0], rest⟩
      | _ =>
          .error (.syntaxError
            s!"Unknown instruction \x27{instr}\x27 (line {lineNo + 1})")

/-- One line of `compile`'s main loop (lines 190–453): strip the comment,
split on spaces, skip a blank first token, tokenize every argument token,
dispatch the instruction, check the argument count, parse each expression
and assemble the output line (dropping the trailing comma, appending the
line cap).  Returns the pushed output line (if any) and the new stack. -/
def processLine (lineNo : Nat) (line : String) (stack : List Nat) :
    Except CompileError (Option String × List Nat) :=
  match splitOnChar ' ' (String.mk (beforeComment line.data)) with
  | [] => .ok (none, stack)
  | t0 :: rest =>
      if t0.length = 0 then .ok (none, stack)
      else
        match rest.mapM (fun t => (tokenizeExpression lineNo t).map Prod.fst) with
        | .error e => .error e
        | .ok exprs =>
            match dispatchInstr lineNo t0 exprs.length stack with
            | .error e => .error e
            | .ok d =>
                let argOk := match d.argCount with
                  | none => true
                  | some counts => counts.contains exprs.length
                if !argOk then
                  .error (.syntaxError s!"Invalid argument count (line {lineNo + 1})")
                else
                  match (rest.zip exprs).mapM
                      (fun p => parseExpGo lineNo (2 * p.1.length + 4) p.2 none 0 1 "") with
                  | .error e => .error e
                  | .ok parsed =>
                      let body := String.join (parsed.map (· ++ ","))
                      let out0 := d.out ++ (if d.isFunctionCall then "(" else "") ++ body
                      let cap :=
                        if d.isOpenBlock = 1 then ")\x7b"
                        else if d.isOpenBlock = 2 then ",async()=>\x7b"
                        else if d.isFunctionCall then ");" else ""
                      let cut := if exprs.length > 0 then 1 else 0
                      let out := String.mk (out0.data.take (out0.data.length - cut)) ++ cap
                      .ok (some out, d.stack)

/-- The line loop: thread the block stack and collect the output lines. -/
def compileLines : Nat → List String → List Nat → List String →
    Except CompileError (List String × List Nat)
  | _, [], stack, outs => .ok (outs.reverse, stack)
  | lineNo, l :: rest, stack, outs =>
      match processLine lineNo l stack with
      | .error e => .error e
      | .ok (none, stack2) => compileLines (lineNo + 1) rest stack2 outs
      | .ok (some out, stack2) => compileLines (lineNo + 1) rest stack2 (out :: outs)

/-- `script.replaceAll('\r', '').split('\n').map((line) => line.trim())`. -/
def linesOf (script : String) : List String :=
  (splitOnChar '\n' (String.mk (script.data.filter (fun c => c ≠ '\r')))).map jsTrim

/-- The class `[A-Za-z0-9\-_]` of the pixel-literal regex. -/
def pixClassChar (c : Char) : Bool :=
  c.isAlphanum || c = '-' || c = '_'

/-- `compiledScript.replaceAll(/{[A-Za-z0-9\-_]+?}/g, …)` (lines 459–463):
each minimal `\x7bид\x7d` literal is replaced by the quoted
`convertStr(id, 'standard', format)`; the `cid == undefined` guard throws
`PixSimAssemblyPixelIdError` exactly when `convertStr` returned JS `null`
(loose equality with `undefined`), i.e. when an id table is missing. -/
def replacePixAux (st : ConverterState) (fmt : String) :
    Nat → List Char → List Char → Except CompileError String
  | 0, _, _ => .error .hang
  | _ + 1, [], acc => .ok (String.mk acc.reverse)
  | fuel + 1, c :: rest, acc =>
      if c = '\x7b' then
        let run := rest.takeWhile pixClassChar
        let after := rest.drop run.length
        if run.length > 0 ∧ after.headD ' ' = '\x7d' then
          match convertStr st (String.mk run) "standard" fmt with
          | none =>
              .error (CompileError.pixelIdError
                s!"Unknown pixel id \x27{String.mk run}\x27")
          | some cid =>
              replacePixAux st fmt fuel after.tail
                ('"' :: (cid.data.reverse ++ ('"' :: acc)))
        else replacePixAux st fmt fuel rest ('\x7b' :: acc)
      else replacePixAux st fmt fuel rest (c :: acc)

/-- The per-format pixel-literal replacement over the joined script. -/
def replacePixelIds (st : ConverterState) (fmt : String) (s : String) :
    Except CompileError String :=
  replacePixAux st fmt (s.data.length + 1) s.data []

/-- `PixSimAssemblyCompiler.compile` (lines 186–466).  `formats` embeds
`this.#pixelConverter.conversionFormats` (the keys of the converter's
loaded numeric tables).  Returns the output map as an association list
`format ↦ compiled script`. -/
def compile (st : ConverterState) (formats : List String) (script : String) :
    Except CompileError (List (String × String)) :=
  match compileLines 0 (linesOf script) [] [] with
  | .error e => .error e
  | .ok (outs, stack) =>
      if stack.length > 0 then .error (.syntaxError "Unclosed loop or switch")
      else
        formats.mapM (fun fmt =>
          (replacePixelIds st fmt (String.join outs)).map (fun out => (fmt, out)))

section ClaimC9

/-- A converter state with the `rps` and `bps` numeric tables loaded
(`conversionFormats = [rps, bps]`) and id tables for both dialects and
`standard`, as the constructor builds them. -/
def stC9 : ConverterState where
  tables := fun d => if d = "rps" ∨ d = "bps" then some ⟨emptyTab, emptyTab⟩ else none
  idTables := fun d =>
    if d = "rps" ∨ d = "bps" ∨ d = "standard" then
      some ⟨fun _ => none, fun _ => none⟩
    else none

/-- Well-nested PixSimAssembly block programs over representative valid
instruction lines: plain statements, conditionals (with and without
`ELSE`), loops, iterations and functions, in sequence. -/
inductive Prog where
  | pnil
  | pwrite (rest : Prog)
  | pprint (rest : Prog)
  | pif (thn els rest : Prog)
  | pifN (thn rest : Prog)
  | pwhile (body rest : Prog)
  | pfor (body rest : Prog)
  | pfun (body rest : Prog)

/-- The source lines of a block program. -/
def render : Prog → List String
  | .pnil => []
  | .pwrite r => "WRITE <x> 1" :: render r
  | .pprint r => "PRINT \"ok\"" :: render r
  | .pif t e r => "IF 1" :: (render t ++ "ELSE" :: (render e ++ "END" :: render r))
  | .pifN t r => "IF 1" :: (render t ++ "END" :: render r)
  | .pwhile b r => "WHILE 1" :: (render b ++ "END" :: render r)
  | .pfor b r => "FOR <i> 3" :: (render b ++ "END" :: render r)
  | .pfun b r => "FUNCTION f" :: (render b ++ "END" :: render r)

/-- `script.split('\n')` joined back together. -/
def joinLines : List String → String
  | [] => ""
  | [l] => l
  | l :: ls => l ++ "\n" ++ joinLines ls

/-- The concrete lines the block fragment and its unbalanced variants use. -/
def fragSet : List String :=
  ["WRITE <x> 1", "PRINT \"ok\"", "IF 1", "ELSE", "ELIF 1", "WHILE 1",
    "FOR <i> 3", "FUNCTION f", "END"]

theorem render_fragSet (p : Prog) : ∀ l ∈ render p, l ∈ fragSet := by
  induction p with
  | pnil => intro l hl; cases hl
  | pwrite r ih =>
      intro l hl
      rcases List.mem_cons.mp hl with h | h
      · subst h; decide
      · exact ih l h
  | pprint r ih =>
      intro l hl
      rcases List.mem_cons.mp hl with h | h
      · subst h; decide
      · exact ih l h
  | pif t e r iht ihe ihr =>
      intro l hl
      rcases List.mem_cons.mp hl with h | h
      · subst h; decide
      rcases List.mem_append.mp h with h | h
      · exact iht l h
      rcases List.mem_cons.mp h with h | h
      · subst h; decide
      rcases List.mem_append.mp h with h | h
      · exact ihe l h
      rcases List.mem_cons.mp h with h | h
      · subst h; decide
      · exact ihr l h
  | pifN t r iht ihr =>
      intro l hl
      rcases List.mem_cons.mp hl with h | h
      · subst h; decide
      rcases List.mem_append.mp h with h | h
      · exact iht l h
      rcases List.mem_cons.mp h with h | h
      · subst h; decide
      · exact ihr l h
  | pwhile b r ihb ihr =>
      intro l hl
      rcases List.mem_cons.mp hl with h | h
      · subst h; decide
      rcases List.mem_append.mp h with h | h
      · exact ihb l h
      rcases List.mem_cons.mp h with h | h
      · subst h; decide
      · exact ihr l h
  | pfor b r ihb ihr =>
      intro l hl
      rcases List.mem_cons.mp hl with h | h
      · subst h; decide
      rcases List.mem_append.mp h with h | h
      · exact ihb l h
      rcases List.mem_cons.mp h with h | h
      · subst h; decide
      · exact ihr l h
  | pfun b r ihb ihr =>
      intro l hl
      rcases List.mem_cons.mp hl with h | h
      · subst h; decide
      rcases List.mem_append.mp h with h | h
      · exact ihb l h
      rcases List.mem_cons.mp h with h | h
      · subst h; decide
      · exact ihr l h

/-- Every fragment line is newline- and carriage-return-free and already
trimmed. -/
theorem fragSet_clean : ∀ l ∈ fragSet,
    (∀ c ∈ l.data, c ≠ '\n' ∧ c ≠ '\r') ∧ jsTrim l = l := by
  decide

theorem splitAux_no_sep (sep : Char) (xs : List Char) :
    ∀ cur, (∀ x ∈ xs, x ≠ sep) →
      splitOnCharAux sep xs cur = [String.mk (cur.reverse ++ xs)] := by
  induction xs with
  | nil => intro cur _; simp [splitOnCharAux]
  | cons c rest ih =>
      intro cur hx
      rw [splitOnCharAux, if_neg (hx c (List.mem_cons_self _ _))]
      rw [ih (c :: cur) (fun x h => hx x (List.mem_cons_of_mem _ h))]
      simp

theorem splitAux_sep (sep : Char) (xs ys : List Char) :
    ∀ cur, (∀ x ∈ xs, x ≠ sep) →
      splitOnCharAux sep (xs ++ sep :: ys) cur =
        String.mk (cur.reverse ++ xs) :: splitOnCharAux sep ys [] := by
  induction xs with
  | nil => intro cur _; simp [splitOnCharAux]
  | cons c rest ih =>
      intro cur hx
      rw [List.cons_append, splitOnCharAux, if_neg (hx c (List.mem_cons_self _ _))]
      rw [ih (c :: cur) (fun x h => hx x (List.mem_cons_of_mem _ h))]
      simp

theorem split_joinLines (ls : List String) (hne : ls ≠ [])
    (hnl : ∀ l ∈ ls, ∀ c ∈ l.data, c ≠ '\n') :
    splitOnChar '\n' (joinLines ls) = ls := by
  induction ls with
  | nil => exact absurd rfl hne
  | cons l rest ih =>
      cases rest with
      | nil =>
          show splitOnCharAux '\n' l.data [] = [l]
          rw [splitAux_no_sep '\n' l.data [] (hnl l (List.mem_cons_self _ _))]
          simp
      | cons l2 rest2 =>
          show splitOnCharAux '\n' (l ++ "\n" ++ joinLines (l2 :: rest2)).data [] = _
          rw [String.data_append, String.data_append]
          have h1 : ("\n" : String).data = ['\n'] := rfl
          rw [h1, List.append_assoc, List.singleton_append]
          rw [splitAux_sep '\n' l.data _ [] (hnl l (List.mem_cons_self _ _))]
          have := ih (by simp) (fun x hx => hnl x (List.mem_cons_of_mem _ hx))
          rw [show splitOnCharAux '\n' (joinLines (l2 :: rest2)).data [] =
                splitOnChar '\n' (joinLines (l2 :: rest2)) from rfl, this]
          simp

theorem joinLines_chars (ls : List String) :
    ∀ c ∈ (joinLines ls).data, c = '\n' ∨ ∃ l ∈ ls, c ∈ l.data := by
  induction ls with
  | nil => intro c hc; cases hc
  | cons l rest ih =>
      cases rest with
      | nil =>
          intro c hc
          exact Or.inr ⟨l, List.mem_cons_self _ _, hc⟩
      | cons l2 rest2 =>
          intro c hc
          rw [show joinLines (l :: l2 :: rest2) = l ++ "\n" ++ joinLines (l2 :: rest2)
            from rfl, String.data_append, String.data_append] at hc
          rcases List.mem_append.mp hc with h | h
          · rcases List.mem_append.mp h with h | h
            · exact Or.inr ⟨l, List.mem_cons_self _ _, h⟩
            · simp only [show ("\n" : String).data = ['\n'] from rfl,
                List.mem_singleton] at h
              exact Or.inl h
          · rcases ih c h with h | ⟨x, hx, hcx⟩
            · exact Or.inl h
            · exact Or.inr ⟨x, List.mem_cons_of_mem _ hx, hcx⟩

theorem map_trim_id (ls : List String) (h : ∀ l ∈ ls, jsTrim l = l) :
    ls.map jsTrim = ls := by
  induction ls with
  | nil => rfl
  | cons l rest ih =>
      rw [List.map_cons, h l (List.mem_cons_self _ _),
        ih (fun x hx => h x (List.mem_cons_of_mem _ hx))]

/-- The preprocessing of `compile` recovers the joined lines of any
fragment script. -/
theorem linesOf_joinLines (ls : List String) (hne : ls ≠ [])
    (hfrag : ∀ l ∈ ls, l ∈ fragSet) : linesOf (joinLines ls) = ls := by
  have hclean : ∀ l ∈ ls, (∀ c ∈ l.data, c ≠ '\n' ∧ c ≠ '\r') ∧ jsTrim l = l :=
    fun l hl => fragSet_clean l (hfrag l hl)
  unfold linesOf
  have hfilter : (joinLines ls).data.filter (fun c => c ≠ '\r') = (joinLines ls).data := by
    rw [List.filter_eq_self]
    intro c hc
    rcases joinLines_chars ls c hc with h | ⟨l, hl, hcl⟩
    · subst h; decide
    · simp [((hclean l hl).1 c hcl).2]
  rw [hfilter, show String.mk (joinLines ls).data = joinLines ls from rfl]
  rw [split_joinLines ls hne (fun l hl c hc => ((hclean l hl).1 c hc).1)]
  exact map_trim_id ls (fun l hl => (hclean l hl).2)

/-! One-line steps of the compiler on fragment lines, for an arbitrary
line number, stack and accumulator (the outputs are the concrete lowered
strings). -/

theorem step_write (n : Nat) (M : List String) (st : List Nat) (outs : List String) :
    compileLines n ("WRITE <x> 1" :: M) st outs =
      compileLines (n + 1) M st ("setVariable(getVariable(\"x\"),1);" :: outs) := rfl

theorem step_print (n : Nat) (M : List String) (st : List Nat) (outs : List String) :
    compileLines n ("PRINT \"ok\"" :: M) st outs =
      compileLines (n + 1) M st ("print(\"ok\");" :: outs) := rfl

theorem step_if (n : Nat) (M : List String) (st : List Nat) (outs : List String) :
    compileLines n ("IF 1" :: M) st outs =
      compileLines (n + 1) M (0 :: st) ("if(1)\x7b" :: outs) := rfl

theorem step_else (n : Nat) (M : List String) (st : List Nat) (outs : List String) :
    compileLines n ("ELSE" :: M) (0 :: st) outs =
      compileLines (n + 1) M (0 :: st) ("\x7delse\x7b" :: outs) := rfl

theorem step_while (n : Nat) (M : List String) (st : List Nat) (outs : List String) :
    compileLines n ("WHILE 1" :: M) st outs =
      compileLines (n + 1) M (1 :: st) ("while(1)\x7b" :: outs) := rfl

theorem step_for (n : Nat) (M : List String) (st : List Nat) (outs : List String) :
    compileLines n ("FOR <i> 3" :: M) st outs =
      compileLines (n + 1) M (2 :: st)
        ("await forEach(getVariable(\"i\"),3,async()=>\x7b" :: outs) := rfl

theorem step_fun (n : Nat) (M : List String) (st : List Nat) (outs : List String) :
    compileLines n ("FUNCTION f" :: M) st outs =
      compileLines (n + 1) M (2 :: st) ("defFunction(\"f\",async()=>\x7b" :: outs) := rfl

theorem step_end0 (n : Nat) (M : List String) (st : List Nat) (outs : List String) :
    compileLines n ("END" :: M) (0 :: st) outs =
      compileLines (n + 1) M st ("\x7d" :: outs) := rfl

theorem step_end1 (n : Nat) (M : List String) (st : List Nat) (outs : List String) :
    compileLines n ("END" :: M) (1 :: st) outs =
      compileLines (n + 1) M st ("\x7d" :: outs) := rfl

theorem step_end2 (n : Nat) (M : List String) (st : List Nat) (outs : List String) :
    compileLines n ("END" :: M) (2 :: st) outs =
      compileLines (n + 1) M st ("\x7d);" :: outs) := rfl

/-- Processing a rendered block program never fails and leaves the block
stack exactly as it found it, from any starting state. -/
theorem render_steps (p : Prog) : ∀ (n : Nat) (st : List Nat)
    (outs : List String) (L : List String),
    ∃ n2 outs2, compileLines n (render p ++ L) st outs = compileLines n2 L st outs2 := by
  induction p with
  | pnil => exact fun n st outs L => ⟨n, outs, by rw [render, List.nil_append]⟩
  | pwrite r ih =>
      intro n st outs L
      rw [render, List.cons_append, step_write]
      exact ih (n + 1) st _ L
  | pprint r ih =>
      intro n st outs L
      rw [render, List.cons_append, step_print]
      exact ih (n + 1) st _ L
  | pif t e r iht ihe ihr =>
      intro n st outs L
      rw [render, List.cons_append, List.append_assoc, List.cons_append,
        List.append_assoc, List.cons_append, step_if]
      obtain ⟨n2, o2, h2⟩ := iht (n + 1) (0 :: st) _ ("ELSE" :: (render e ++ "END" :: (render r ++ L)))
      rw [h2, step_else]
      obtain ⟨n3, o3, h3⟩ := ihe (n2 + 1) (0 :: st) _ ("END" :: (render r ++ L))
      rw [h3, step_end0]
      exact ihr (n3 + 1) st _ L
  | pifN t r iht ihr =>
      intro n st outs L
      rw [render, List.cons_append, List.append_assoc, List.cons_append, step_if]
      obtain ⟨n2, o2, h2⟩ := iht (n + 1) (0 :: st) _ ("END" :: (render r ++ L))
      rw [h2, step_end0]
      exact ihr (n2 + 1) st _ L
  | pwhile b r ihb ihr =>
      intro n st outs L
      rw [render, List.cons_append, List.append_assoc, List.cons_append, step_while]
      obtain ⟨n2, o2, h2⟩ := ihb (n + 1) (1 :: st) _ ("END" :: (render r ++ L))
      rw [h2, step_end1]
      exact ihr (n2 + 1) st _ L
  | pfor b r ihb ihr =>
      intro n st outs L
      rw [render, List.cons_append, List.append_assoc, List.cons_append, step_for]
      obtain ⟨n2, o2, h2⟩ := ihb (n + 1) (2 :: st) _ ("END" :: (render r ++ L))
      rw [h2, step_end2]
      exact ihr (n2 + 1) st _ L
  | pfun b r ihb ihr =>
      intro n st outs L
      rw [render, List.cons_append, List.append_assoc, List.cons_append, step_fun]
      obtain ⟨n2, o2, h2⟩ := ihb (n + 1) (2 :: st) _ ("END" :: (render r ++ L))
      rw [h2, step_end2]
      exact ihr (n2 + 1) st _ L

/-- With both id tables present, `convertStr` returns a string (never the
JS `null` that the pixel-id guard rejects). -/
theorem convertStr_isSome (st : ConverterState) (id dF dT : String)
    (h1 : (st.idTables dF).isSome) (h2 : (st.idTables dT).isSome) :
    ∃ r, convertStr st id dF dT = some r := by
  unfold convertStr
  split
  · exact ⟨id, rfl⟩
  · cases hf : st.idTables dF with
    | none => rw [hf] at h1; cases h1
    | some f =>
        cases ht : st.idTables dT with
        | none => rw [ht] at h2; cases h2
        | some t => exact ⟨_, rfl⟩

/-- With the `standard` and target id tables present, the pixel-literal
replacement pass always succeeds (the fuel covers the character count). -/
theorem replacePixAux_ok (st : ConverterState) (fmt : String)
    (hstd : (st.idTables "standard").isSome) (hf : (st.idTables fmt).isSome) :
    ∀ fuel chars acc, chars.length < fuel →
      ∃ out, replacePixAux st fmt fuel chars acc = .ok out := by
  intro fuel
  induction fuel with
  | zero => intro chars acc h; omega
  | succ fuel ih =>
      intro chars acc hlen
      cases chars with
      | nil => exact ⟨_, rfl⟩
      | cons c rest =>
          simp only [List.length_cons, Nat.succ_lt_succ_iff] at hlen
          rw [replacePixAux]
          by_cases hc : c = '\x7b'
          · rw [if_pos hc]
            by_cases hmatch : (rest.takeWhile pixClassChar).length > 0 ∧
                (rest.drop (rest.takeWhile pixClassChar).length).headD ' ' = '\x7d'
            · rw [if_pos hmatch]
              obtain ⟨r, hr⟩ := convertStr_isSome st
                (String.mk (rest.takeWhile pixClassChar)) "standard" fmt hstd hf
              rw [hr]
              refine ih _ _ ?_
              have h1 : (rest.drop (rest.takeWhile pixClassChar).length).length =
                  rest.length - (rest.takeWhile pixClassChar).length :=
                List.length_drop _ _
              have h2 : (rest.drop (rest.takeWhile pixClassChar).length).tail.length =
                  (rest.drop (rest.takeWhile pixClassChar).length).length - 1 :=
                List.length_tail _
              omega
            · rw [if_neg hmatch]
              exact ih _ _ hlen
          · rw [if_neg hc]
            exact ih _ _ hlen

/-- In `stC9` the per-format pixel replacement succeeds on any compiled
script (the pixel-id guard compares `convertStr`'s result to `undefined`
loosely, and with the id tables loaded `convertStr` never returns null). -/
theorem formatsMapM_ok (s : String) :
    ∃ out, (["rps", "bps"].mapM (fun fmt =>
      (replacePixelIds stC9 fmt s).map (fun o => (fmt, o)))) = Except.ok out := by
  obtain ⟨o1, h1⟩ := replacePixAux_ok stC9 "rps" (by rfl) (by rfl)
    (s.data.length + 1) s.data [] (by omega)
  obtain ⟨o2, h2⟩ := replacePixAux_ok stC9 "bps" (by rfl) (by rfl)
    (s.data.length + 1) s.data [] (by omega)
  refine ⟨[("rps", o1), ("bps", o2)], ?_⟩
  simp only [List.mapM_cons, List.mapM_nil, replacePixelIds, h1, h2, Except.map,
    bind, Except.bind, pure, Except.pure]

/-- C9.  Block balance of the PixSimAssembly compiler: every well-nested
program of `IF/ELSE/END`, `WHILE/END`, `FOR/END`, `FUNCTION/END` blocks
over valid instruction lines compiles to an output map without error, and
each unbalanced variant throws a `PixSimAssemblySyntaxError`: an `END`
with no open block, an `ELSE` (or `ELIF`) whose innermost open block is a
loop (or iteration), and an unclosed block at end of input. -/
theorem compile_blocks_C9 (p : Prog) :
    (∃ out, compile stC9 ["rps", "bps"] (joinLines (render p)) = Except.ok out) ∧
    (∃ m, compile stC9 ["rps", "bps"] (joinLines (render p ++ ["END"])) =
      Except.error (CompileError.syntaxError m)) ∧
    (∃ m, compile stC9 ["rps", "bps"] (joinLines (render p ++ ["WHILE 1", "ELSE"])) =
      Except.error (CompileError.syntaxError m)) ∧
    (∃ m, compile stC9 ["rps", "bps"] (joinLines (render p ++ ["FOR <i> 3", "ELIF 1"])) =
      Except.error (CompileError.syntaxError m)) ∧
    (∃ m, compile stC9 ["rps", "bps"] (joinLines ("IF 1" :: render p)) =
      Except.error (CompileError.syntaxError m)) := by
  have hfrag := render_fragSet p
  refine ⟨?_, ?_, ?_, ?_, ?_⟩
  · -- balanced programs compile
    by_cases hp : render p = []
    · rw [hp]
      exact ⟨_, rfl⟩
    · have heq := linesOf_joinLines (render p) hp hfrag
      obtain ⟨n2, o2, hrun⟩ := render_steps p 0 [] [] []
      rw [List.append_nil] at hrun
      unfold compile
      rw [heq, hrun, show compileLines n2 [] [] o2 = .ok (o2.reverse, []) from rfl]
      exact formatsMapM_ok (String.join o2.reverse)
  · -- an END with no open block
    have heq := linesOf_joinLines (render p ++ ["END"]) (by simp)
      (fun l hl => by
        rcases List.mem_append.mp hl with h | h
        · exact hfrag l h
        · rcases List.mem_singleton.mp h with rfl; decide)
    obtain ⟨n2, o2, hrun⟩ := render_steps p 0 [] [] ["END"]
    obtain ⟨m, hm⟩ : ∃ m, compileLines n2 ["END"] [] o2 =
        .error (CompileError.syntaxError m) := ⟨_, rfl⟩
    refine ⟨m, ?_⟩
    unfold compile
    rw [heq, hrun, hm]
  · -- an ELSE whose innermost open block is a loop
    have heq := linesOf_joinLines (render p ++ ["WHILE 1", "ELSE"]) (by simp)
      (fun l hl => by
        rcases List.mem_append.mp hl with h | h
        · exact hfrag l h
        · rcases List.mem_cons.mp h with rfl | h
          · decide
          · rcases List.mem_singleton.mp h with rfl; decide)
    obtain ⟨n2, o2, hrun⟩ := render_steps p 0 [] [] ["WHILE 1", "ELSE"]
    obtain ⟨m, hm⟩ : ∃ m, compileLines n2 ["WHILE 1", "ELSE"] [] o2 =
        .error (CompileError.syntaxError m) := ⟨_, rfl⟩
    refine ⟨m, ?_⟩
    unfold compile
    rw [heq, hrun, hm]
  · -- an ELIF whose innermost open block is an iteration
    have heq := linesOf_joinLines (render p ++ ["FOR <i> 3", "ELIF 1"]) (by simp)
      (fun l hl => by
        rcases List.mem_append.mp hl with h | h
        · exact hfrag l h
        · rcases List.mem_cons.mp h with rfl | h
          · decide
          · rcases List.mem_singleton.mp h with rfl; decide)
    obtain ⟨n2, o2, hrun⟩ := render_steps p 0 [] [] ["FOR <i> 3", "ELIF 1"]
    obtain ⟨m, hm⟩ : ∃ m, compileLines n2 ["FOR <i> 3", "ELIF 1"] [] o2 =
        .error (CompileError.syntaxError m) := ⟨_, rfl⟩
    refine ⟨m, ?_⟩
    unfold compile
    rw [heq, hrun, hm]
  · -- an unclosed block at end of input
    have heq := linesOf_joinLines ("IF 1" :: render p) (by simp)
      (fun l hl => by
        rcases List.mem_cons.mp hl with rfl | h
        · decide
        · exact hfrag l h)
    obtain ⟨n2, o2, hrun⟩ := render_steps p 1 [0] ["if(1)\x7b"] []
    rw [List.append_nil] at hrun
    refine ⟨"Unclosed loop or switch", ?_⟩
    unfold compile
    rw [heq, step_if, hrun,
      show compileLines n2 [] [0] o2 = .ok (o2.reverse, [0]) from rfl]
    rfl

end ClaimC9

end PixSim
